import Mathlib

/-!
# Kilobot arena calibration: a shallow embedding of `calibratearena.cpp`

The session object `CalibrateArena` and its worker `stitchThread` are embedded as
pure functions over an explicit state.  Integer pixel coordinates are `Int`.
Floating-point values are rationals: every `float` operation of the source is
followed by rounding to binary32 (`float32`) and every `double` operation by
rounding to binary64 (`float64`), round to nearest, ties to even; infinities and
NaN are outside the model.  A float-to-int conversion truncates toward zero.
OpenCV primitives whose numeric content is outside this repository are taken as
fields of an `OpenCV` record.
-/

namespace KilobotArena

/-! ## Binary floating-point rounding -/

/-- Rounding of a rational to the nearest integer, ties to the even one. -/
def roundHalfEven (q : ℚ) : Int :=
  if q - ⌊q⌋ < 1 / 2 then ⌊q⌋
  else if 1 / 2 < q - ⌊q⌋ then ⌊q⌋ + 1
  else if ⌊q⌋ % 2 = 0 then ⌊q⌋ else ⌊q⌋ + 1

/-- The unit in the last place of a non-negative value in a binary format with
`p` significand bits and least normal exponent `emin`: `2 ^ (e - (p - 1))` with
`e` the binary exponent of the value, not below `emin` (subnormal range). -/
def ulpAt (p : Nat) (emin : Int) (q : ℚ) : ℚ :=
  (2 : ℚ) ^ (max (Int.log 2 q) emin - (p - 1))

/-- Rounding of a non-negative value to the format: the nearest multiple of its
unit in the last place, ties to even. -/
def roundMagnitude (p : Nat) (emin : Int) (q : ℚ) : ℚ :=
  (roundHalfEven (q / ulpAt p emin q) : ℚ) * ulpAt p emin q

/-- Rounding to the format, by sign and magnitude. -/
def roundBinary (p : Nat) (emin : Int) (q : ℚ) : ℚ :=
  if q < 0 then -roundMagnitude p emin (-q) else roundMagnitude p emin q

/-- Rounding to binary32, the format of `float`. -/
def float32 (q : ℚ) : ℚ := roundBinary 24 (-126) q

/-- Rounding to binary64, the format of `double`. -/
def float64 (q : ℚ) : ℚ := roundBinary 53 (-1022) q

/-! ## Median focal length (`stitchThread::run`, lines 62-74) -/

/-- The call `sort(focals.begin(), focals.end())`: ascending order on the
focal values. -/
def sortFocals (focals : List ℚ) : List ℚ :=
  focals.insertionSort (fun a b => a ≤ b)

/-- The value of `warped_image_scale` computed from the focal lengths pushed into
`focals` (values of type `double`): `static_cast<float>(focals[size/2])` for an
odd size, and `static_cast<float>(focals[size/2 - 1] + focals[size/2]) * 0.5f`
for an even one, the sum being a `double` addition and the product a `float`
multiplication.  `none` stands for the out-of-range subscript the source
performs on an empty vector (`focals[size/2 - 1]` with `size = 0`). -/
def warpedImageScale (focals : List ℚ) : Option ℚ :=
  let focals := sortFocals focals
  if focals.length % 2 = 1 then
    match focals[focals.length / 2]? with
    | some middle => some (float32 middle)
    | none => none
  else
    match focals[focals.length / 2 - 1]?, focals[focals.length / 2]? with
    | some a, some b => some (float32 (float32 (float64 (a + b)) * (1 / 2)))
    | _, _ => none

/-! ## Geometry and image types -/

/-- Qt `QPoint`: a point with `int` coordinates. -/
structure QPoint where
  x : Int
  y : Int
deriving DecidableEq, Repr

/-- OpenCV `Size` (`Size_<int>`). -/
structure Size where
  width : Int
  height : Int
deriving DecidableEq, Repr

/-- OpenCV `Point` (`Point_<int>`). -/
structure Point where
  x : Int
  y : Int
deriving DecidableEq, Repr

/-- OpenCV `Point2f`; a default-constructed point is `(0, 0)`. -/
structure Point2f where
  x : ℚ := 0
  y : ℚ := 0
deriving DecidableEq

/-- OpenCV `Rect` (`Rect_<int>`): top-left corner, width and height. -/
structure Rect where
  x : Int
  y : Int
  width : Int
  height : Int
deriving DecidableEq, Repr

/-- OpenCV `Mat` as far as the session observes it: its size, and its pixel
content as an uninterpreted value.  A default-constructed `Mat` is empty. -/
structure Mat where
  size : Size := ⟨0, 0⟩
  pixels : Nat := 0
deriving DecidableEq, Repr

/-- The array `Point2f inputQuad[4]` (and `outputQuad[4]`): four points, each
default-constructed as `(0, 0)`. -/
@[ext]
structure Quad where
  q0 : Point2f := {}
  q1 : Point2f := {}
  q2 : Point2f := {}
  q3 : Point2f := {}
deriving DecidableEq

/-- Truncation of a value toward zero. -/
def truncToInt (v : ℚ) : Int :=
  if 0 ≤ v then ⌊v⌋ else ⌈v⌉

/-- Conversion of a `float` to `int`: truncation toward zero.  For a value whose
truncation is outside the range of a 32-bit `int` the C++ conversion is
undefined; the model gives `-2^31`, the result of the x86 conversion
instruction. -/
def floatToInt (v : ℚ) : Int :=
  if -2147483648 ≤ truncToInt v ∧ truncToInt v ≤ 2147483647 then truncToInt v
  else -2147483648

/-- The implicit conversion `Point` to `Point2f`. -/
def Point.toPoint2f (p : Point) : Point2f :=
  ⟨(p.x : ℚ), (p.y : ℚ)⟩

/-- OpenCV `detail::ImageFeatures`. -/
structure ImageFeatures where
  img_idx : Int
  keypoints : List Point2f
  descriptors : Nat
deriving DecidableEq

/-- OpenCV `detail::MatchesInfo`; `dmatches` is its member `matches`. -/
structure MatchesInfo where
  src_img_idx : Int
  dst_img_idx : Int
  dmatches : List (Int × Int)
  confidence : ℚ
deriving DecidableEq

/-- The OpenCV primitives the session calls.  Their numeric content is outside
the repository; each is an uninterpreted function of its arguments. -/
structure OpenCV where
  /-- Pixel content produced by `cv::resize`. -/
  resizePixels : Mat → Size → Nat
  /-- Pixel content produced by `cv::cvtColor` with `CV_BGR2RGB`. -/
  cvtColorPixels : Mat → Nat
  /-- Pixel content after `circle` is drawn at a centre. -/
  circlePixels : Mat → Point → Nat
  /-- Pixel content of the sub-matrix `m(rect)` copied out. -/
  cropPixels : Mat → Rect → Nat
  /-- The matrix returned by `getPerspectiveTransform(src, dst)`. -/
  getPerspectiveTransform : Quad → Quad → Mat
  /-- Pixel content produced by `warpPerspective(src, dst, M, dsize)`. -/
  warpPerspectivePixels : Mat → Mat → Size → Nat
  /-- The `SurfFeaturesFinder` built with a threshold, applied to an image. -/
  surfFeaturesFinder : Int → Mat → ImageFeatures
  /-- The `BestOf2NearestMatcher` built with a confidence, applied to the
  features. -/
  bestOf2NearestMatcher : ℚ → List ImageFeatures → List MatchesInfo
  /-- The call `leaveBiggestComponent(features, pairwise_matches, conf)`: the
  features and matches it leaves in place, and the indices it returns. -/
  leaveBiggestComponent :
    List ImageFeatures → List MatchesInfo → ℚ → List ImageFeatures × List MatchesInfo × List Int
  /-- The feature preview drawn for image `i`: key points of the found features
  and the one-way matches drawn on the small image. -/
  featuresPreviewPixels :
    List Mat → List ImageFeatures → List ImageFeatures → List MatchesInfo → Nat → Nat

/-- The call `cv::resize(src, dst, dsize)`: the result has size `dsize`. -/
def OpenCV.resize (cv : OpenCV) (src : Mat) (dsize : Size) : Mat :=
  ⟨dsize, cv.resizePixels src dsize⟩

/-- The call `cv::cvtColor(src, dst, CV_BGR2RGB)`: the size is kept. -/
def OpenCV.cvtColor (cv : OpenCV) (src : Mat) : Mat :=
  ⟨src.size, cv.cvtColorPixels src⟩

/-- The call `circle(img, center, ...)`: draws in place, the size is kept. -/
def OpenCV.circle (cv : OpenCV) (img : Mat) (center : Point) : Mat :=
  ⟨img.size, cv.circlePixels img center⟩

/-- The call `warpPerspective(src, dst, M, dsize)`: the result has size
`dsize`. -/
def OpenCV.warpPerspective (cv : OpenCV) (src M : Mat) (dsize : Size) : Mat :=
  ⟨dsize, cv.warpPerspectivePixels src M dsize⟩

/-! ## Session state -/

/-- The worker `stitchThread`: its inputs, its outputs and whether the thread is
executing (`QThread::isRunning`). -/
structure StitchThread where
  cameraCalibrationImages : List Mat := []
  features : List ImageFeatures := []
  pairwise_matches : List MatchesInfo := []
  finalImage : Mat := {}
  Ks : List Mat := []
  Rs : List Mat := []
  isRunning : Bool := false
deriving DecidableEq

/-- The members of `CalibrateArena`, with the in-class default initialisers of
`calibratearena.h`.  A null `thread` pointer is `none`; `stitchButton` holds the
identity of the button that started the last stitch. -/
structure CalibrateArena where
  cameraCalibrationImages : List Mat := []
  smallImageSize : QPoint := ⟨300, 300⟩
  featureFinderThreshold : Int := 10
  matcherThreshold : ℚ := float32 (6 / 10)
  features : List ImageFeatures := []
  pairwise_matches : List MatchesInfo := []
  goodMatches : Bool := false
  arenaCorners : List QPoint := []
  fullSizeFinalIm : Mat := {}
  thread : Option StitchThread := none
  stitchButton : Option Nat := none
deriving DecidableEq

/-- What a slot does besides changing the members: the Qt signals it emits, the
text it sets on a push button, the calibration record it writes through
`FileStorage` (`corner1` to `corner4`, `R`, `K`) and the `lastDirOut` setting it
stores. -/
inductive Effect where
  | errorMessage (msg : String)
  | setImage (i : Nat) (pix : Mat)
  | setFeaturesImage (i : Nat) (pix : Mat)
  | setStitchedImage (pix : Mat)
  | setSquaredImage (pix : Mat)
  | setText (button : Nat) (text : String)
  | writeCalibration (fileName : String) (corners : Quad) (Rs Ks : List Mat)
  | setLastDirOut (fileName : String)
deriving DecidableEq

/-! ## Corner picking (`pointSelected`, `resetPoint`) -/

/-- The preview redrawn by `pointSelected` and `resetPoint`: the worker's
composite resized to twice the small-image size, one circle per picked corner,
then the colour conversion. -/
def drawCorners (cv : OpenCV) (s : CalibrateArena) (t : StitchThread) : Mat :=
  let result := cv.resize t.finalImage ⟨s.smallImageSize.x * 2, s.smallImageSize.y * 2⟩
  let result := s.arenaCorners.foldl (fun r c => cv.circle r ⟨c.x, c.y⟩) result
  cv.cvtColor result

/-- The block `// draw points` shared by `pointSelected` and `resetPoint`. -/
def drawPoints (cv : OpenCV) (s : CalibrateArena) : List Effect :=
  match s.thread with
  | none => []
  | some t =>
    if !t.isRunning then
      if t.finalImage.size.width < 100 then []
      else [Effect.setStitchedImage (drawCorners cv s t)]
    else []

/-- The slot `CalibrateArena::pointSelected(QPoint point)`. -/
def pointSelected (cv : OpenCV) (s : CalibrateArena) (point : QPoint) :
    CalibrateArena × List Effect :=
  let s := if s.arenaCorners.length < 4 then
      { s with arenaCorners := s.arenaCorners ++ [point] }
    else s
  (s, drawPoints cv s)

/-- The slot `CalibrateArena::resetPoint()`. -/
def resetPoint (cv : OpenCV) (s : CalibrateArena) : CalibrateArena × List Effect :=
  let s := if s.arenaCorners.length > 0 then
      { s with arenaCorners := s.arenaCorners.dropLast }
    else s
  (s, drawPoints cv s)

/-- One call made on the corner list by the user interface. -/
inductive CornerCall where
  | pointSelected (point : QPoint)
  | resetPoint
deriving DecidableEq

/-- The session after one corner call. -/
def CornerCall.apply (cv : OpenCV) (s : CalibrateArena) : CornerCall → CalibrateArena
  | .pointSelected point => (KilobotArena.pointSelected cv s point).1
  | .resetPoint => (KilobotArena.resetPoint cv s).1

/-- The session after a sequence of corner calls, first call first. -/
def runCornerCalls (cv : OpenCV) (s : CalibrateArena) (calls : List CornerCall) :
    CalibrateArena :=
  calls.foldl (CornerCall.apply cv) s

/-! ## Squaring (`squareArena`) -/

/-- The statement `Point center(float(c.x)*float(width)/float(small.x*2), ...)`
of the loop `// convert co-ordinates`: a clicked point rescaled to the composite,
both coordinates converted to `int`. -/
def convertCoordinates (finalImage : Size) (smallImageSize : QPoint) (c : QPoint) : Point :=
  ⟨floatToInt (float32 (float32 (float32 (c.x : ℚ) * float32 (finalImage.width : ℚ)) /
      float32 ((smallImageSize.x * 2 : Int) : ℚ))),
   floatToInt (float32 (float32 (float32 (c.y : ℚ) * float32 (finalImage.height : ℚ)) /
      float32 ((smallImageSize.y * 2 : Int) : ℚ)))⟩

/-- The operands of one coordinate of the rescaling are in the range where
binary32 holds integers exactly: the click, the composite size and their
product are below `2 ^ 24` in magnitude, and the displayed size `small * 2` is
positive and below `2 ^ 24`. -/
def rescaleInRange (size small click : Int) : Prop :=
  click.natAbs < 2 ^ 24 ∧ size.natAbs < 2 ^ 24 ∧ (click * size).natAbs < 2 ^ 24 ∧
    0 < small * 2 ∧ small * 2 < 2 ^ 24

instance (size small click : Int) : Decidable (rescaleInRange size small click) :=
  inferInstanceAs (Decidable (_ ∧ _))

/-- Condition of the first `if`: `center.x > width/2.0 && center.y > height/2`
(the role stored in `inputQuad[3]`, bottom-right).  `width/2.0` is a floating
division, `height/2` an `int` division. -/
def isBottomRight (finalImage : Size) (center : Point) : Prop :=
  (center.x : ℚ) > (finalImage.width : ℚ) / 2 ∧ center.y > Int.tdiv finalImage.height 2

/-- Condition of the second `if`: `center.x > width/2.0 && center.y < height/2`
(`inputQuad[1]`, top-right). -/
def isTopRight (finalImage : Size) (center : Point) : Prop :=
  (center.x : ℚ) > (finalImage.width : ℚ) / 2 ∧ center.y < Int.tdiv finalImage.height 2

/-- Condition of the third `if`: `center.x < width/2.0 && center.y > height/2`
(`inputQuad[2]`, bottom-left). -/
def isBottomLeft (finalImage : Size) (center : Point) : Prop :=
  (center.x : ℚ) < (finalImage.width : ℚ) / 2 ∧ center.y > Int.tdiv finalImage.height 2

/-- Condition of the fourth `if`: `center.x < width/2.0 && center.y < height/2`
(`inputQuad[0]`, top-left). -/
def isTopLeft (finalImage : Size) (center : Point) : Prop :=
  (center.x : ℚ) < (finalImage.width : ℚ) / 2 ∧ center.y < Int.tdiv finalImage.height 2

instance (finalImage : Size) (center : Point) : Decidable (isBottomRight finalImage center) :=
  inferInstanceAs (Decidable (_ ∧ _))

instance (finalImage : Size) (center : Point) : Decidable (isTopRight finalImage center) :=
  inferInstanceAs (Decidable (_ ∧ _))

instance (finalImage : Size) (center : Point) : Decidable (isBottomLeft finalImage center) :=
  inferInstanceAs (Decidable (_ ∧ _))

instance (finalImage : Size) (center : Point) : Decidable (isTopLeft finalImage center) :=
  inferInstanceAs (Decidable (_ ∧ _))

/-- The four `if` statements of one loop iteration, in source order, applied to
the quad built so far. -/
def classifyCorner (finalImage : Size) (inputQuad : Quad) (center : Point) : Quad :=
  let inputQuad := if isBottomRight finalImage center then
      { inputQuad with q3 := center.toPoint2f } else inputQuad
  let inputQuad := if isTopRight finalImage center then
      { inputQuad with q1 := center.toPoint2f } else inputQuad
  let inputQuad := if isBottomLeft finalImage center then
      { inputQuad with q2 := center.toPoint2f } else inputQuad
  let inputQuad := if isTopLeft finalImage center then
      { inputQuad with q0 := center.toPoint2f } else inputQuad
  inputQuad

/-- The loop over already rescaled centres, from a given quad. -/
def classifyCenters (finalImage : Size) (inputQuad : Quad) (centers : List Point) : Quad :=
  centers.foldl (classifyCorner finalImage) inputQuad

/-- The loop `for (i = 0; i < arenaCorners.size(); i++)` of `squareArena`: the
value of `inputQuad` after it, starting from the default-constructed array. -/
def squareArenaInputQuad (finalImage : Size) (smallImageSize : QPoint)
    (arenaCorners : List QPoint) : Quad :=
  classifyCenters finalImage {} (arenaCorners.map (convertCoordinates finalImage smallImageSize))

/-- The array `outputQuad` of `squareArena` after its four assignments. -/
def outputQuad : Quad :=
  { q0 := ⟨0, 0⟩, q1 := ⟨2000, 0⟩, q2 := ⟨0, 2000⟩, q3 := ⟨2000, 2000⟩ }

/-- The slot `CalibrateArena::squareArena()`. -/
def squareArena (cv : OpenCV) (s : CalibrateArena) : CalibrateArena × List Effect :=
  if s.arenaCorners.length < 4 then
    (s, [Effect.errorMessage
      "4 points needed to square - select them on the stitched image in the previous tab"])
  else
    match s.thread with
    | none => (s, [])
    | some t =>
      if !t.isRunning then
        if t.finalImage.size.width < 100 then (s, [])
        else
          let inputQuad := squareArenaInputQuad t.finalImage.size s.smallImageSize s.arenaCorners
          let M := cv.getPerspectiveTransform inputQuad outputQuad
          let fullSizeFinalIm := cv.warpPerspective t.finalImage M ⟨2000, 2000⟩
          let fullSizeFinalIm := cv.cvtColor fullSizeFinalIm
          let shrunkIm := cv.resize fullSizeFinalIm
            ⟨s.smallImageSize.x * 2, s.smallImageSize.y * 2⟩
          ({ s with fullSizeFinalIm := fullSizeFinalIm },
            [Effect.setSquaredImage shrunkIm, Effect.errorMessage "Squaring complete"])
      else (s, [])

/-! ## Feature extraction (`extractFeatures`) -/

/-- The loop `for (i = 1; i < size; ++i)` under `// all images must be the same
size`: true when some image from index 1 on has a size other than that of
image 0, which makes the slot return. -/
def sizeMismatch (images : List Mat) : Bool :=
  match images with
  | [] => false
  | first :: rest => rest.any (fun m => decide (m.size ≠ first.size))

/-- The features vector after the `// ROI finder (SURF)` loop: entry `i` is the
finder's result on image `i`, with `img_idx` set to `i`. -/
def findFeatures (cv : OpenCV) (threshold : Int) (images : List Mat) : List ImageFeatures :=
  images.enum.map (fun im =>
    { cv.surfFeaturesFinder threshold im.2 with img_idx := (im.1 : Int) })

/-- The signals `setFeaturesImage0` to `setFeaturesImage3` emitted by the loop
`// display the images`, one for each small image of index below 4. -/
def featuresImages (cv : OpenCV) (s : CalibrateArena) (found kept : List ImageFeatures)
    (pairwise : List MatchesInfo) : List Effect :=
  ((List.range s.cameraCalibrationImages.length).filter (fun i => i < 4)).map (fun i =>
    Effect.setFeaturesImage i
      ⟨⟨s.smallImageSize.x, s.smallImageSize.y⟩,
        cv.featuresPreviewPixels s.cameraCalibrationImages found kept pairwise i⟩)

/-- The features, the pairwise matches and the returned indices after the
matcher and `leaveBiggestComponent(features, pairwise_matches, 0.5f)` have run on
the features found in the session's images. -/
def biggestComponent (cv : OpenCV) (s : CalibrateArena) :
    List ImageFeatures × List MatchesInfo × List Int :=
  let found := findFeatures cv s.featureFinderThreshold s.cameraCalibrationImages
  let pairwise := cv.bestOf2NearestMatcher s.matcherThreshold found
  cv.leaveBiggestComponent found pairwise (1 / 2)

/-- The slot `CalibrateArena::extractFeatures()`. -/
def extractFeatures (cv : OpenCV) (s : CalibrateArena) : CalibrateArena × List Effect :=
  if s.cameraCalibrationImages.length ≠ 4 then
    (s, [Effect.errorMessage "Incorrect calibration image number"])
  else if sizeMismatch s.cameraCalibrationImages then
    (s, [Effect.errorMessage "Not all calibration images are the same size"])
  else
    let s := { s with goodMatches := false }
    let found := findFeatures cv s.featureFinderThreshold s.cameraCalibrationImages
    let biggest := biggestComponent cv s
    let s := { s with features := biggest.1, pairwise_matches := biggest.2.1 }
    let indices := biggest.2.2
    let shown := featuresImages cv s found biggest.1 biggest.2.1
    if indices.length < 4 then
      (s, shown ++ [Effect.errorMessage
        "Cannot match all the images: try reducing the feature and/or match thresholds"])
    else
      ({ s with goodMatches := true },
        shown ++ [Effect.errorMessage "Features extracted successfully"])

/-! ## Starting and aborting the stitch (`stitchImages`) -/

/-- The text set on the sending push button, when the sender is one. -/
def setSenderText (sender : Option Nat) (text : String) : List Effect :=
  match sender with
  | some button => [Effect.setText button text]
  | none => []

/-- The tail of `stitchImages` from `// no stitcher running`: the worker (created
when the pointer was null) receives the session's images, matches and features
and is started. -/
def launchStitcher (s : CalibrateArena) (t : StitchThread) (sender : Option Nat) :
    CalibrateArena × List Effect :=
  let t := { t with
    cameraCalibrationImages := s.cameraCalibrationImages,
    pairwise_matches := s.pairwise_matches,
    features := s.features,
    isRunning := true }
  ({ s with thread := some t, stitchButton := sender },
    setSenderText sender "Abort stitching" ++ [Effect.errorMessage "Stitcher thread running..."])

/-- The slot `CalibrateArena::stitchImages()`.  `sender` is the push button that
sent the signal, when there is one; `stopped` tells whether a running worker has
ended at the second `isRunning()` test, after `terminate()` and `wait(10)`. -/
def stitchImages (s : CalibrateArena) (sender : Option Nat) (stopped : Bool) :
    CalibrateArena × List Effect :=
  if !s.goodMatches then
    (s, [Effect.errorMessage "No good matches, please repeat feature extraction"])
  else
    match s.thread with
    | some t =>
      if t.isRunning then
        if !stopped then
          (s, [Effect.errorMessage "Couldn't end stitcher thread"])
        else
          ({ s with thread := some { t with isRunning := false } },
            Effect.errorMessage "Stitcher thread terminated" ::
              setSenderText sender "Stitch images")
      else launchStitcher s t sender
    | none => launchStitcher s {} sender

/-! ## Panning the corrected image (`zoomMove`) -/

/-- The `Rect` passed to `fullSizeFinalIm(...)` in `zoomMove`: the focus point
rescaled to the corrected image by `float(pos)/float(small*2)*float(size)` and
converted to `int`, the four clamping statements in source order,
then the rectangle of the preview size around it. -/
def zoomRect (smallImageSize : QPoint) (fullSizeFinalIm : Size) (pos : QPoint) : Rect :=
  let width := floatToInt (float32
    (float32 (float32 (pos.x : ℚ) / float32 ((smallImageSize.x * 2 : Int) : ℚ)) *
      float32 (fullSizeFinalIm.width : ℚ)))
  let height := floatToInt (float32
    (float32 (float32 (pos.y : ℚ) / float32 ((smallImageSize.y * 2 : Int) : ℚ)) *
      float32 (fullSizeFinalIm.height : ℚ)))
  let width := if width < smallImageSize.x then smallImageSize.x else width
  let width := if width > fullSizeFinalIm.width - smallImageSize.x - 1 then
      fullSizeFinalIm.width - smallImageSize.x - 1 else width
  let height := if height < smallImageSize.y then smallImageSize.y else height
  let height := if height > fullSizeFinalIm.height - smallImageSize.y - 1 then
      fullSizeFinalIm.height - smallImageSize.y - 1 else height
  ⟨width - smallImageSize.x, height - smallImageSize.y,
    smallImageSize.x * 2, smallImageSize.y * 2⟩

/-- The precondition asserted by the sub-matrix constructor `Mat(m, roi)`: the
rectangle lies inside the matrix. -/
def Rect.inside (roi : Rect) (m : Size) : Prop :=
  0 ≤ roi.x ∧ 0 ≤ roi.width ∧ roi.x + roi.width ≤ m.width ∧
  0 ≤ roi.y ∧ 0 ≤ roi.height ∧ roi.y + roi.height ≤ m.height

instance (roi : Rect) (m : Size) : Decidable (roi.inside m) :=
  inferInstanceAs (Decidable (_ ∧ _))

/-- The slot `CalibrateArena::zoomMove(QPoint pos)`.  `none` stands for the
failed assertion of the sub-matrix constructor on a rectangle that is not inside
the corrected image. -/
def zoomMove (cv : OpenCV) (s : CalibrateArena) (pos : QPoint) :
    Option (CalibrateArena × List Effect) :=
  let roi := zoomRect s.smallImageSize s.fullSizeFinalIm.size pos
  if roi.inside s.fullSizeFinalIm.size then
    some (s, [Effect.setSquaredImage ⟨⟨roi.width, roi.height⟩, cv.cropPixels s.fullSizeFinalIm roi⟩])
  else none

/-- A centre strictly inside one quadrant of the composite, the quadrants being
cut by the exact midlines `width/2` and `height/2`: `right` selects the side of
the vertical midline and `bottom` the side of the horizontal one.  This is the
reading of "quadrant" in the order-independence property, stated apart from the
conditions of the loop. -/
def inQuadrant (finalImage : Size) (right bottom : Bool) (center : Point) : Prop :=
  (if right then finalImage.width < 2 * center.x else 2 * center.x < finalImage.width) ∧
  (if bottom then finalImage.height < 2 * center.y else 2 * center.y < finalImage.height)

instance (finalImage : Size) (right bottom : Bool) (center : Point) :
    Decidable (inQuadrant finalImage right bottom center) :=
  inferInstanceAs (Decidable (_ ∧ _))

/-- The quadrant of a centre as a pair of sides (right of the vertical midline,
below the horizontal midline). -/
def quadrantOf (finalImage : Size) (center : Point) : Bool × Bool :=
  (decide (finalImage.width < 2 * center.x), decide (finalImage.height < 2 * center.y))

/-- The last centre of a list that meets a condition, if there is one: the
centre whose assignment to a slot of `inputQuad` is the one that remains. -/
def lastSuch (cond : Point → Bool) : List Point → Option Point
  | [] => none
  | center :: rest =>
    match lastSuch cond rest with
    | some later => some later
    | none => if cond center then some center else none

/-! ## Loading images and setting thresholds -/

/-- The signals `setImage0` to `setImage3` of `setCalibrationImages`: each image
resized to the small-image size and colour-converted, for the indices below 4. -/
def smallImages (cv : OpenCV) (smallImageSize : QPoint) (calImgs : List Mat) : List Effect :=
  (calImgs.enum.filter (fun im => im.1 < 4)).map (fun im =>
    Effect.setImage im.1 (cv.cvtColor (cv.resize im.2 ⟨smallImageSize.x, smallImageSize.y⟩)))

/-- The slot `CalibrateArena::setCalibrationImages(vector<Mat> calImgs)`. -/
def setCalibrationImages (cv : OpenCV) (s : CalibrateArena) (calImgs : List Mat) :
    CalibrateArena × List Effect :=
  ({ s with cameraCalibrationImages := calImgs },
    smallImages cv s.smallImageSize calImgs ++ [Effect.errorMessage "Images loaded"])

/-- The slot `CalibrateArena::setFeatureFinderThreshold(int val)`. -/
def setFeatureFinderThreshold (s : CalibrateArena) (val : Int) : CalibrateArena :=
  { s with featureFinderThreshold := val }

/-- The slot `CalibrateArena::setMatcherThreshold(int val)`:
`float(val)/100.0f`. -/
def setMatcherThreshold (s : CalibrateArena) (val : Int) : CalibrateArena :=
  { s with matcherThreshold := float32 (float32 (val : ℚ) / 100) }

/-! ## The worker (`stitchThread::run`) and its completion -/

/-- OpenCV `detail::CameraParams`. -/
structure CameraParams where
  focal : ℚ
  aspect : ℚ
  ppx : ℚ
  ppy : ℚ
  R : Mat
  t : Mat
deriving DecidableEq

/-- The OpenCV stitching primitives called by the worker, as uninterpreted
functions of their arguments. -/
structure Stitcher where
  /-- The `HomographyBasedEstimator` applied to features and matches. -/
  estimator : List ImageFeatures → List MatchesInfo → List CameraParams
  /-- The conversion `R.convertTo(R, CV_32F)`. -/
  convertTo32F : Mat → Mat
  /-- The `BundleAdjusterReproj` with a confidence threshold and a refinement
  mask (rows of the 3 by 3 mask), applied to the cameras. -/
  bundleAdjuster : ℚ → List (List Nat) → List ImageFeatures → List MatchesInfo →
    List CameraParams → List CameraParams
  /-- Rotation `i` after `waveCorrect(rmats, WAVE_CORRECT_HORIZ)`, which works in
  place. -/
  waveCorrect : List Mat → Nat → Mat
  /-- The matrix returned by `CameraParams::K()`. -/
  cameraK : CameraParams → Mat
  /-- A plane warper created with a scale, applied to an image with `K` and `R`
  and an interpolation and border mode: the corner and the warped image. -/
  planeWarp : ℚ → Mat → Mat → Mat → String → String → Point × Mat
  /-- Gain compensation fed with corners, warped images and warped masks, then
  applied to image `i`. -/
  compensate : List Point → List Mat → List Mat → Nat → Mat
  /-- The feather blender prepared with corners and sizes and fed the warped
  images and masks; `blend` then the type conversion of the result. -/
  blend : List Point → List Size → List Mat → List Mat → Mat

/-- The scale given to the warper by `warper_creator->create(3000.0f)`. -/
def warperScale : ℚ := 3000

/-- The matrix `refine_mask` of `run`: zero but for entries (0,0), (0,1), (0,2),
(1,1), (1,2). -/
def refineMask : List (List Nat) := [[1, 1, 1], [0, 1, 1], [0, 0, 0]]

/-- The vector `cameras` of `run` after estimation, the conversion of each
rotation, bundle adjustment and wave correction. -/
def refinedCameras (st : Stitcher) (t : StitchThread) : List CameraParams :=
  let cameras := st.estimator t.features t.pairwise_matches
  let cameras := cameras.map (fun c => { c with R := st.convertTo32F c.R })
  let cameras := st.bundleAdjuster (float32 (6 / 10)) refineMask t.features
    t.pairwise_matches cameras
  let rmats := cameras.map (fun c => c.R)
  cameras.enum.map (fun ic => { ic.2 with R := st.waveCorrect rmats ic.1 })

/-- The vector `focals` of `run`: the focal length of every camera after bundle
adjustment (wave correction changes rotations only). -/
def cameraFocals (st : Stitcher) (t : StitchThread) : List ℚ :=
  (refinedCameras st t).map (fun c => c.focal)

/-- The image warps of `run`: for image `i`, the corner and warped image and the
warped mask, both through the one warper created with `warperScale`.  An image
without a camera of the same index (an out-of-range `cameras[i]`) gives
`none`. -/
def warpImages (st : Stitcher) (images : List Mat) (cameras : List CameraParams) :
    Option (List ((Point × Mat) × Mat)) :=
  images.enum.mapM (fun im =>
    match cameras[im.1]? with
    | none => none
    | some camera =>
      let K := st.convertTo32F (st.cameraK camera)
      let mask : Mat := ⟨im.2.size, 255⟩
      some (st.planeWarp warperScale im.2 K camera.R "INTER_LINEAR" "BORDER_REFLECT",
        (st.planeWarp warperScale mask K camera.R "INTER_NEAREST" "BORDER_CONSTANT").2))

/-- The method `stitchThread::run()`, executed to its end: the worker's state
when the thread has finished.  `none` stands for an out-of-range subscript.  The
median `warped_image_scale` is computed from the sorted focals and appears
nowhere after its assignment. -/
def StitchThread.run (cv : OpenCV) (st : Stitcher) (t : StitchThread) : Option StitchThread :=
  let cameras := refinedCameras st t
  let _warped_image_scale := warpedImageScale (cameraFocals st t)
  match warpImages st t.cameraCalibrationImages cameras with
  | none => none
  | some warped =>
    let corners := warped.map (fun w => w.1.1)
    let images_warped := warped.map (fun w => w.1.2)
    let masks_warped := warped.map (fun w => w.2)
    let sizes := images_warped.map (fun m => m.size)
    let compensated := (List.range warped.length).map
      (st.compensate corners images_warped masks_warped)
    let result := st.blend corners sizes compensated masks_warped
    some { t with
      finalImage := cv.resize result ⟨1536, 1536⟩,
      Ks := t.Ks ++ cameras.map st.cameraK,
      Rs := t.Rs ++ cameras.map (fun c => c.R),
      isRunning := false }

/-- The slot `CalibrateArena::stitcherFinished()`.  The last statement calls
`this->stitchButton->setText` without a test; `none` stands for that call on a
null `stitchButton`, which `stitchImages` stores when its sender is not a push
button. -/
def stitcherFinished (cv : OpenCV) (s : CalibrateArena) : Option (CalibrateArena × List Effect) :=
  match s.thread with
  | none => some (s, [])
  | some t =>
    if t.finalImage.size.width < 100 then some (s, [])
    else
      let result := cv.resize t.finalImage ⟨s.smallImageSize.x * 2, s.smallImageSize.y * 2⟩
      let result := cv.cvtColor result
      match s.stitchButton with
      | none => none
      | some button =>
        some (s, [Effect.setStitchedImage result, Effect.errorMessage "Stitching complete",
          Effect.setText button "Stitch images"])

/-- A running worker reaches the end of `run` and its `finished()` signal
invokes `stitcherFinished`.  `none` when no worker is running, when `run` fails
or when `stitcherFinished` does. -/
def workerCompletes (cv : OpenCV) (st : Stitcher) (s : CalibrateArena) :
    Option (CalibrateArena × List Effect) :=
  match s.thread with
  | none => none
  | some t =>
    if t.isRunning then
      match t.run cv st with
      | none => none
      | some done => stitcherFinished cv { s with thread := some done }
    else none

/-! ## Saving (`saveCalibration`) -/

/-- One iteration of the loop of `saveCalibration` on an already rescaled
centre: its four `if` statements, in source order. -/
def saveClassifyCorner (finalImage : Size) (inputQuad : Quad) (center : Point) : Quad :=
  let inputQuad :=
    if (center.x : ℚ) > (finalImage.width : ℚ) / 2 ∧ center.y > Int.tdiv finalImage.height 2
    then { inputQuad with q3 := center.toPoint2f } else inputQuad
  let inputQuad :=
    if (center.x : ℚ) > (finalImage.width : ℚ) / 2 ∧ center.y < Int.tdiv finalImage.height 2
    then { inputQuad with q1 := center.toPoint2f } else inputQuad
  let inputQuad :=
    if (center.x : ℚ) < (finalImage.width : ℚ) / 2 ∧ center.y > Int.tdiv finalImage.height 2
    then { inputQuad with q2 := center.toPoint2f } else inputQuad
  let inputQuad :=
    if (center.x : ℚ) < (finalImage.width : ℚ) / 2 ∧ center.y < Int.tdiv finalImage.height 2
    then { inputQuad with q0 := center.toPoint2f } else inputQuad
  inputQuad

/-- The loop `for (i = 0; i < arenaCorners.size(); ++i)` of `saveCalibration`:
each corner rescaled by the statement `Point center(...)` of that loop, then
classified, starting from the default-constructed array. -/
def saveCalibrationInputQuad (finalImage : Size) (smallImageSize : QPoint)
    (arenaCorners : List QPoint) : Quad :=
  arenaCorners.foldl (fun inputQuad c =>
    saveClassifyCorner finalImage inputQuad
      ⟨floatToInt (float32 (float32 (float32 (c.x : ℚ) * float32 (finalImage.width : ℚ)) /
          float32 ((smallImageSize.x * 2 : Int) : ℚ))),
       floatToInt (float32 (float32 (float32 (c.y : ℚ) * float32 (finalImage.height : ℚ)) /
          float32 ((smallImageSize.y * 2 : Int) : ℚ)))⟩)
    {}

/-- The slot `CalibrateArena::saveCalibration()`.  `fileName` is the answer of
the save-file dialog, asked only once both checks have passed. -/
def saveCalibration (s : CalibrateArena) (fileName : String) : CalibrateArena × List Effect :=
  match s.thread with
  | none => (s, [])
  | some t =>
    if !t.isRunning then
      if t.finalImage.size.width < 100 then
        (s, [Effect.errorMessage "No valid stitched image generated"])
      else if s.arenaCorners.length < 4 then
        (s, [Effect.errorMessage "Arena corners for squaring not set"])
      else if fileName.isEmpty then
        (s, [Effect.errorMessage "No save file given"])
      else
        let inputQuad := saveCalibrationInputQuad t.finalImage.size s.smallImageSize
          s.arenaCorners
        (s, [Effect.writeCalibration fileName inputQuad t.Rs t.Ks,
          Effect.setLastDirOut fileName])
    else (s, [])

/-- The four roles a corner can take, with the slot of `inputQuad` each one
names: 0 top-left, 1 top-right, 2 bottom-left, 3 bottom-right. -/
inductive Role where
  | topLeft
  | topRight
  | bottomLeft
  | bottomRight
deriving DecidableEq

/-- The condition of `squareArena` under which a centre is stored for a role. -/
def Role.holds (finalImage : Size) : Role → Point → Prop
  | .topLeft, center => isTopLeft finalImage center
  | .topRight, center => isTopRight finalImage center
  | .bottomLeft, center => isBottomLeft finalImage center
  | .bottomRight, center => isBottomRight finalImage center

instance (finalImage : Size) (role : Role) (center : Point) :
    Decidable (role.holds finalImage center) := by
  cases role <;> unfold Role.holds <;> infer_instance

/-- The slot of a quad that belongs to a role. -/
def Quad.slot (quad : Quad) : Role → Point2f
  | .topLeft => quad.q0
  | .topRight => quad.q1
  | .bottomLeft => quad.q2
  | .bottomRight => quad.q3

/-! ## A sample instance of the OpenCV record

Used to instantiate the theorems on concrete sessions. -/

/-- An `OpenCV` record whose matcher keeps every image in one component: the
finder returns one key point per image, no pairwise matches are produced, and
`leaveBiggestComponent` returns the indices `0..3`. -/
def sampleCV : OpenCV where
  resizePixels := fun m _ => m.pixels
  cvtColorPixels := fun m => m.pixels
  circlePixels := fun m _ => m.pixels + 1
  cropPixels := fun m _ => m.pixels
  getPerspectiveTransform := fun _ _ => ⟨⟨3, 3⟩, 1⟩
  warpPerspectivePixels := fun m _ _ => m.pixels
  surfFeaturesFinder := fun _ m => ⟨0, [⟨0, 0⟩], m.pixels⟩
  bestOf2NearestMatcher := fun _ _ => []
  leaveBiggestComponent := fun fs ms _ => (fs, ms, [0, 1, 2, 3])
  featuresPreviewPixels := fun _ _ _ _ i => i

/-- An `OpenCV` record like `sampleCV` whose `leaveBiggestComponent` keeps only
images 0 and 1. -/
def splitCV : OpenCV :=
  { sampleCV with leaveBiggestComponent := fun fs ms _ => (fs.take 2, ms, [0, 1]) }

/-- A finished worker holding a 1536 by 1536 composite. -/
def finishedThread : StitchThread :=
  { finalImage := ⟨⟨1536, 1536⟩, 7⟩, isRunning := false }

/-- Four calibration images of equal size. -/
def fourImages : List Mat :=
  [⟨⟨2048, 1536⟩, 1⟩, ⟨⟨2048, 1536⟩, 2⟩, ⟨⟨2048, 1536⟩, 3⟩, ⟨⟨2048, 1536⟩, 4⟩]

/-- Four corners clicked on the 600 by 600 preview, one in each quadrant. -/
def fourCorners : List QPoint :=
  [⟨50, 50⟩, ⟨550, 50⟩, ⟨50, 550⟩, ⟨550, 550⟩]

/-- A session constructed with `smallImageSize = (1000, 1000)`, holding four
corners and a finished worker. -/
def previewSizedSession : CalibrateArena :=
  { smallImageSize := ⟨1000, 1000⟩, arenaCorners := fourCorners,
    thread := some finishedThread }

/-- A `Stitcher` record that estimates one camera per feature set, with focal
lengths 10, 20, 30, 40 in order, and leaves rotations as they are. -/
def sampleStitcher : Stitcher where
  estimator := fun fs _ =>
    fs.enum.map (fun f => ⟨10 * ((f.1 : ℚ) + 1), 1, 0, 0, ⟨⟨3, 3⟩, f.1⟩, ⟨⟨1, 3⟩, 0⟩⟩)
  convertTo32F := fun m => m
  bundleAdjuster := fun _ _ _ _ cameras => cameras
  waveCorrect := fun rmats i => rmats.getD i {}
  cameraK := fun c => ⟨⟨3, 3⟩, 100 + c.R.pixels⟩
  planeWarp := fun _ img _ _ _ _ => (⟨0, 0⟩, img)
  compensate := fun _ imgs _ i => imgs.getD i {}
  blend := fun _ _ _ _ => ⟨⟨3000, 3000⟩, 9⟩

/-- Four feature sets, one per image. -/
def fourFeatures : List ImageFeatures :=
  [⟨0, [], 1⟩, ⟨1, [], 2⟩, ⟨2, [], 3⟩, ⟨3, [], 4⟩]

/-- A session that holds four images, good matches on four feature sets (with one
pairwise match stored) and four corners, and no worker yet. -/
def matchedSession : CalibrateArena :=
  { cameraCalibrationImages := fourImages, features := fourFeatures,
    pairwise_matches := [⟨0, 1, [(0, 0)], 1⟩], goodMatches := true,
    arenaCorners := fourCorners }

/-- Four other calibration images, of another size. -/
def otherImages : List Mat :=
  [⟨⟨1024, 768⟩, 11⟩, ⟨⟨1024, 768⟩, 12⟩, ⟨⟨1024, 768⟩, 13⟩, ⟨⟨1024, 768⟩, 14⟩]

/-- A worker that is executing `run` on the data of `matchedSession`, holding
the 1536 by 1536 composite of an earlier run. -/
def runningThread : StitchThread :=
  { cameraCalibrationImages := fourImages, features := fourFeatures,
    finalImage := ⟨⟨1536, 1536⟩, 7⟩, isRunning := true }

/-- The session `matchedSession` after a number of complete stitch runs: each
run is a `stitchImages` call sent by push button 0 that starts the worker,
followed by the completion of `run`. -/
def sessionAfterRuns : Nat → Option CalibrateArena
  | 0 => some matchedSession
  | n + 1 =>
    match sessionAfterRuns n with
    | none => none
    | some s =>
      match workerCompletes sampleCV sampleStitcher (stitchImages s (some 0) false).1 with
      | none => none
      | some r => some r.1

/-- The lengths of the lists `Rs` and `Ks` in the record written by
`saveCalibration`, when it writes one. -/
def writtenLengths (effects : List Effect) : Option (Nat × Nat) :=
  effects.findSome? (fun e =>
    match e with
    | .writeCalibration _ _ Rs Ks => some (Rs.length, Ks.length)
    | _ => none)

/-! ## Theorems -/

/-! ### Binary rounding -/

theorem roundHalfEven_intCast (n : Int) : roundHalfEven (n : ℚ) = n := by
  unfold roundHalfEven
  simp

theorem roundHalfEven_error (q : ℚ) :
    (roundHalfEven q : ℚ) - q ≤ 1 / 2 ∧ q - (roundHalfEven q : ℚ) ≤ 1 / 2 := by
  have h1 := Int.floor_le q
  have h2 := Int.lt_floor_add_one q
  unfold roundHalfEven
  split_ifs <;> push_cast <;> constructor <;> linarith

theorem roundHalfEven_mono {x y : ℚ} (h : x ≤ y) : roundHalfEven x ≤ roundHalfEven y := by
  have hf : ⌊x⌋ ≤ ⌊y⌋ := Int.floor_mono h
  have hx1 := Int.floor_le x
  have hx2 := Int.lt_floor_add_one x
  have hy1 := Int.floor_le y
  have hy2 := Int.lt_floor_add_one y
  rcases lt_or_eq_of_le hf with hlt | heq
  · have hxle : roundHalfEven x ≤ ⌊x⌋ + 1 := by
      unfold roundHalfEven; split_ifs <;> omega
    have hyge : ⌊y⌋ ≤ roundHalfEven y := by
      unfold roundHalfEven; split_ifs <;> omega
    omega
  · unfold roundHalfEven
    rw [heq] at hx1 hx2 ⊢
    split_ifs <;> first | omega | (exfalso; linarith)

theorem ulpAt_pos (p : Nat) (emin : Int) (q : ℚ) : 0 < ulpAt p emin q := by
  unfold ulpAt
  positivity

theorem roundMagnitude_error (p : Nat) (emin : Int) (q : ℚ) :
    roundMagnitude p emin q - q ≤ ulpAt p emin q / 2 ∧
    q - roundMagnitude p emin q ≤ ulpAt p emin q / 2 := by
  have hu := ulpAt_pos p emin q
  obtain ⟨h1, h2⟩ := roundHalfEven_error (q / ulpAt p emin q)
  have hq : q / ulpAt p emin q * ulpAt p emin q = q := div_mul_cancel₀ q hu.ne'
  unfold roundMagnitude
  constructor
  · have := mul_le_mul_of_nonneg_right h1 hu.le
    rw [sub_mul, hq] at this
    linarith
  · have := mul_le_mul_of_nonneg_right h2 hu.le
    rw [sub_mul, hq] at this
    linarith

theorem roundHalfEven_nonneg {q : ℚ} (h : 0 ≤ q) : 0 ≤ roundHalfEven q := by
  have := roundHalfEven_mono h
  rwa [show ((0 : ℚ)) = ((0 : Int) : ℚ) by simp, roundHalfEven_intCast] at this

theorem roundMagnitude_nonneg (p : Nat) (emin : Int) {q : ℚ} (h : 0 ≤ q) :
    0 ≤ roundMagnitude p emin q := by
  unfold roundMagnitude
  have hu := ulpAt_pos p emin q
  have : 0 ≤ roundHalfEven (q / ulpAt p emin q) := roundHalfEven_nonneg (div_nonneg h hu.le)
  have h2 : (0 : ℚ) ≤ (roundHalfEven (q / ulpAt p emin q) : ℚ) := by exact_mod_cast this
  positivity

theorem roundMagnitude_zero (p : Nat) (emin : Int) : roundMagnitude p emin 0 = 0 := by
  unfold roundMagnitude
  rw [zero_div, show ((0 : ℚ)) = ((0 : Int) : ℚ) by simp, roundHalfEven_intCast]
  simp

theorem log_eq_of_binade {q : ℚ} {e : Int} (h1 : (2 : ℚ) ^ e ≤ q) (h2 : q < (2 : ℚ) ^ (e + 1)) :
    Int.log 2 q = e := by
  have hq : 0 < q := lt_of_lt_of_le (by positivity) h1
  have a := (Int.zpow_le_iff_le_log (b := 2) (by norm_num) (x := e) hq).mp (by simpa using h1)
  have b := (Int.lt_zpow_iff_log_lt (b := 2) (by norm_num) (x := e + 1) hq).mp (by simpa using h2)
  omega

theorem log_binade {q : ℚ} (hq : 0 < q) :
    (2 : ℚ) ^ Int.log 2 q ≤ q ∧ q < (2 : ℚ) ^ (Int.log 2 q + 1) := by
  have a := Int.zpow_log_le_self (b := 2) (by norm_num) hq
  have b := Int.lt_zpow_succ_log_self (b := 2) (by norm_num) q
  constructor
  · simpa using a
  · simpa using b

theorem roundMagnitude_eval (p : Nat) (emin : Int) {q : ℚ} {e : Int}
    (h1 : (2 : ℚ) ^ e ≤ q) (h2 : q < (2 : ℚ) ^ (e + 1)) (he : emin ≤ e) :
    roundMagnitude p emin q =
      (roundHalfEven (q / (2 : ℚ) ^ (e - (p - 1))) : ℚ) * (2 : ℚ) ^ (e - (p - 1)) := by
  unfold roundMagnitude ulpAt
  rw [log_eq_of_binade h1 h2, max_eq_left he]

/-- A multiple of the unit in the last place is left unchanged by rounding. -/

theorem roundMagnitude_exact (p : Nat) (emin : Int) (q : ℚ) (k : Int)
    (h : q = (k : ℚ) * ulpAt p emin q) : roundMagnitude p emin q = q := by
  have hu := ulpAt_pos p emin q
  unfold roundMagnitude
  have : q / ulpAt p emin q = (k : ℚ) := by
    rw [div_eq_iff hu.ne']; exact h
  rw [this, roundHalfEven_intCast]
  exact h.symm

theorem roundMagnitude_natCast (p : Nat) (emin : Int) (n : Nat) (hp : 1 ≤ p)
    (hemin : emin ≤ (p : Int) - 1) (hn : n < 2 ^ p) : roundMagnitude p emin (n : ℚ) = n := by
  have he : max (Int.log 2 (n : ℚ)) emin ≤ (p : Int) - 1 := by
    apply max_le _ hemin
    rw [Int.log_natCast]
    rcases Nat.eq_zero_or_pos n with h0 | hpos
    · subst h0; simp; omega
    · have := Nat.log_lt_of_lt_pow (by omega) hn
      omega
  obtain ⟨j, hj⟩ := Int.eq_ofNat_of_zero_le (show 0 ≤ (p : Int) - 1 - max (Int.log 2 (n : ℚ)) emin by omega)
  have hu : ulpAt p emin (n : ℚ) = ((2 : ℚ) ^ j)⁻¹ := by
    unfold ulpAt
    have : max (Int.log 2 (n : ℚ)) emin - ((p : Int) - 1) = -(j : Int) := by omega
    rw [this, zpow_neg, zpow_natCast]
  apply roundMagnitude_exact p emin (n : ℚ) ((n : Int) * 2 ^ j)
  rw [hu]
  push_cast
  field_simp

theorem roundMagnitude_le_top (p : Nat) (emin : Int) {q : ℚ} (hq : 0 < q) :
    roundMagnitude p emin q ≤ (2 : ℚ) ^ (max (Int.log 2 q) emin + 1) := by
  have hu := ulpAt_pos p emin q
  have htop : (2 : ℚ) ^ (max (Int.log 2 q) emin + 1) = ((2 ^ p : Int) : ℚ) * ulpAt p emin q := by
    unfold ulpAt
    push_cast
    rw [← zpow_natCast, ← zpow_add₀ (by norm_num)]
    congr 1
    omega
  have hlt : q ≤ (2 : ℚ) ^ (max (Int.log 2 q) emin + 1) :=
    le_trans (log_binade hq).2.le
      (zpow_le_zpow_right₀ (by norm_num) (by have := le_max_left (Int.log 2 q) emin; omega))
  have hdiv : q / ulpAt p emin q ≤ ((2 ^ p : Int) : ℚ) := by
    rw [div_le_iff₀ hu, ← htop]; exact hlt
  have hr := roundHalfEven_mono hdiv
  rw [roundHalfEven_intCast] at hr
  have hr' : (roundHalfEven (q / ulpAt p emin q) : ℚ) ≤ ((2 ^ p : Int) : ℚ) := by exact_mod_cast hr
  rw [htop]
  unfold roundMagnitude
  exact mul_le_mul_of_nonneg_right hr' hu.le

theorem roundMagnitude_ge_bottom (p : Nat) (emin : Int) {q : ℚ} (hq : 0 < q) (hp : 1 ≤ p)
    (he : emin ≤ Int.log 2 q) : (2 : ℚ) ^ (Int.log 2 q) ≤ roundMagnitude p emin q := by
  have hu := ulpAt_pos p emin q
  have hbot : (2 : ℚ) ^ (Int.log 2 q) = ((2 ^ (p - 1) : Int) : ℚ) * ulpAt p emin q := by
    unfold ulpAt
    push_cast
    rw [max_eq_left he, ← zpow_natCast, ← zpow_add₀ (by norm_num)]
    congr 1
    have : ((p - 1 : Nat) : Int) = (p : Int) - 1 := by omega
    rw [this]; ring
  have hdiv : ((2 ^ (p - 1) : Int) : ℚ) ≤ q / ulpAt p emin q := by
    rw [le_div_iff₀ hu, ← hbot]; exact (log_binade hq).1
  have hr := roundHalfEven_mono hdiv
  rw [roundHalfEven_intCast] at hr
  have hr' : ((2 ^ (p - 1) : Int) : ℚ) ≤ (roundHalfEven (q / ulpAt p emin q) : ℚ) := by
    exact_mod_cast hr
  rw [hbot]
  unfold roundMagnitude
  exact mul_le_mul_of_nonneg_right hr' hu.le

theorem roundMagnitude_mono (p : Nat) (emin : Int) (hp : 1 ≤ p) {x y : ℚ} (hx : 0 ≤ x)
    (h : x ≤ y) : roundMagnitude p emin x ≤ roundMagnitude p emin y := by
  rcases eq_or_lt_of_le hx with h0 | hpos
  · rw [← h0, roundMagnitude_zero]
    exact roundMagnitude_nonneg p emin (le_trans hx h)
  · have hy : 0 < y := lt_of_lt_of_le hpos h
    have hlog : Int.log 2 x ≤ Int.log 2 y := Int.log_mono_right hpos h
    have hmax : max (Int.log 2 x) emin ≤ max (Int.log 2 y) emin := max_le_max hlog le_rfl
    rcases eq_or_lt_of_le hmax with heq | hlt
    · have hu : ulpAt p emin x = ulpAt p emin y := by unfold ulpAt; rw [heq]
      have hup := ulpAt_pos p emin y
      unfold roundMagnitude
      rw [hu]
      have := roundHalfEven_mono (div_le_div_of_nonneg_right h hup.le)
      have h' : (roundHalfEven (x / ulpAt p emin y) : ℚ) ≤ (roundHalfEven (y / ulpAt p emin y) : ℚ) := by
        exact_mod_cast this
      exact mul_le_mul_of_nonneg_right h' hup.le
    · have hey : emin < max (Int.log 2 y) emin := lt_of_le_of_lt (le_max_right _ _) hlt
      have hlogy : max (Int.log 2 y) emin = Int.log 2 y := by
        rcases le_total (Int.log 2 y) emin with h1 | h1
        · rw [max_eq_right h1] at hey; exact absurd hey (lt_irrefl _)
        · exact max_eq_left h1
      have hemin : emin ≤ Int.log 2 y := by rw [← hlogy]; exact le_max_right _ _
      calc roundMagnitude p emin x ≤ (2 : ℚ) ^ (max (Int.log 2 x) emin + 1) :=
            roundMagnitude_le_top p emin hpos
        _ ≤ (2 : ℚ) ^ (Int.log 2 y) :=
            zpow_le_zpow_right₀ (by norm_num) (by rw [hlogy] at hlt; omega)
        _ ≤ roundMagnitude p emin y := roundMagnitude_ge_bottom p emin hy hp hemin

theorem roundBinary_mono (p : Nat) (emin : Int) (hp : 1 ≤ p) {x y : ℚ} (h : x ≤ y) :
    roundBinary p emin x ≤ roundBinary p emin y := by
  unfold roundBinary
  by_cases hx : x < 0 <;> by_cases hy : y < 0
  · rw [if_pos hx, if_pos hy]
    exact neg_le_neg (roundMagnitude_mono p emin hp (by linarith) (by linarith))
  · rw [if_pos hx, if_neg hy]
    have h1 := roundMagnitude_nonneg p emin (q := -x) (by linarith)
    have h2 := roundMagnitude_nonneg p emin (q := y) (by linarith)
    linarith
  · exact absurd (lt_of_le_of_lt h hy) hx
  · rw [if_neg hx, if_neg hy]
    exact roundMagnitude_mono p emin hp (by linarith) h

theorem roundBinary_neg (p : Nat) (emin : Int) (q : ℚ) :
    roundBinary p emin (-q) = -roundBinary p emin q := by
  unfold roundBinary
  rcases lt_trichotomy q 0 with h | h | h
  · rw [if_neg (by linarith), if_pos h, neg_neg]
  · subst h; simp [roundMagnitude_zero]
  · rw [if_pos (by linarith), if_neg (by linarith), neg_neg]

theorem roundBinary_intCast (p : Nat) (emin : Int) (n : Int) (hp : 1 ≤ p)
    (hemin : emin ≤ (p : Int) - 1) (hn : n.natAbs < 2 ^ p) :
    roundBinary p emin (n : ℚ) = n := by
  unfold roundBinary
  rcases lt_or_le n 0 with h | h
  · have hq : ((n : Int) : ℚ) < 0 := by exact_mod_cast h
    rw [if_pos hq]
    have hcast : -((n : Int) : ℚ) = ((n.natAbs : Nat) : ℚ) := by
      have habs : ((n.natAbs : Nat) : Int) = -n := by omega
      rw [← Int.cast_natCast (R := ℚ) n.natAbs, habs, Int.cast_neg]
    rw [hcast, roundMagnitude_natCast p emin _ hp hemin hn, ← hcast, neg_neg]
  · have hq : ¬ ((n : Int) : ℚ) < 0 := by
      rw [not_lt]; exact_mod_cast h
    rw [if_neg hq]
    have hcast : ((n : Int) : ℚ) = ((n.natAbs : Nat) : ℚ) := by
      have habs : ((n.natAbs : Nat) : Int) = n := by omega
      rw [← Int.cast_natCast (R := ℚ) n.natAbs, habs]
    rw [hcast, roundMagnitude_natCast p emin _ hp hemin hn]

theorem float32_intCast (n : Int) (hn : n.natAbs < 2 ^ 24) : float32 (n : ℚ) = n :=
  roundBinary_intCast 24 (-126) n (by norm_num) (by norm_num) hn

theorem float32_mono {x y : ℚ} (h : x ≤ y) : float32 x ≤ float32 y :=
  roundBinary_mono 24 (-126) (by norm_num) h

theorem float32_neg (q : ℚ) : float32 (-q) = -float32 q := roundBinary_neg 24 (-126) q

theorem ulpAt_half_lt (q : ℚ) (hq : 0 < q) (b : ℚ) (hb0 : 0 < b) (hb : b < 2 ^ 24)
    (hqb : q * b < 2 ^ 24) : ulpAt 24 (-126) q / 2 < 1 / b := by
  have hbinv : (1 : ℚ) / 2 ^ 24 < 1 / b := by
    apply one_div_lt_one_div_of_lt hb0 hb
  unfold ulpAt
  rcases le_total (Int.log 2 q) (-126) with h | h
  · rw [max_eq_right h]
    have : (2 : ℚ) ^ ((-126 : Int) - ((24 : Nat) - 1)) / 2 < 1 / 2 ^ 24 := by
      norm_num [zpow_neg]
    linarith
  · rw [max_eq_left h]
    have hle := (log_binade hq).1
    have hsplit : (2 : ℚ) ^ (Int.log 2 q - ((24 : Nat) - 1)) =
        (2 : ℚ) ^ (Int.log 2 q) / 2 ^ 23 := by
      rw [zpow_sub₀ (by norm_num)]
      norm_num
    rw [hsplit]
    have h1 : (2 : ℚ) ^ (Int.log 2 q) / 2 ^ 23 / 2 ≤ q / 2 ^ 24 := by
      have : (2 : ℚ) ^ (Int.log 2 q) / 2 ^ 23 / 2 = (2 : ℚ) ^ (Int.log 2 q) / 2 ^ 24 := by
        norm_num; ring
      rw [this]
      exact div_le_div_of_nonneg_right hle (by positivity)
    have h2 : q / 2 ^ 24 < 1 / b := by
      rw [div_lt_div_iff₀ (by positivity) hb0]
      linarith
    linarith

theorem float32_div_between (a b : Nat) (ha : a < 2 ^ 24) (hb0 : 0 < b) (hb : b < 2 ^ 24) :
    ((a / b : Nat) : ℚ) ≤ float32 ((a : ℚ) / (b : ℚ)) ∧
    float32 ((a : ℚ) / (b : ℚ)) < ((a / b : Nat) : ℚ) + 1 := by
  have hbq : (0 : ℚ) < (b : ℚ) := by exact_mod_cast hb0
  have hdm : a = b * (a / b) + a % b := (Nat.div_add_mod a b).symm
  have hq0 : (0 : ℚ) ≤ (a : ℚ) / (b : ℚ) := by positivity
  have hfl : float32 ((a : ℚ) / (b : ℚ)) = roundMagnitude 24 (-126) ((a : ℚ) / (b : ℚ)) := by
    unfold float32 roundBinary
    rw [if_neg (not_lt.mpr hq0)]
  rcases Nat.eq_zero_or_pos (a % b) with hr | hr
  · have hq : (a : ℚ) / (b : ℚ) = ((a / b : Nat) : ℚ) := by
      rw [div_eq_iff hbq.ne']
      have : a = (a / b) * b := by rw [hr] at hdm; linarith [Nat.mul_comm b (a / b)]
      exact_mod_cast this
    have hlt : a / b < 2 ^ 24 := lt_of_le_of_lt (Nat.div_le_self a b) ha
    rw [hfl, hq, roundMagnitude_natCast 24 (-126) _ (by norm_num) (by norm_num) hlt]
    constructor <;> linarith
  · have hmod : a % b < b := Nat.mod_lt a hb0
    have hqeq : (a : ℚ) / (b : ℚ) = ((a / b : Nat) : ℚ) + ((a % b : Nat) : ℚ) / (b : ℚ) := by
      rw [div_eq_iff hbq.ne', add_mul, div_mul_cancel₀ _ hbq.ne']
      have : (a : ℚ) = ((b * (a / b) + a % b : Nat) : ℚ) := by rw [← hdm]
      rw [this]; push_cast; ring
    have hrq : (1 : ℚ) ≤ ((a % b : Nat) : ℚ) := by exact_mod_cast hr
    have hrb : ((a % b : Nat) : ℚ) + 1 ≤ (b : ℚ) := by exact_mod_cast hmod
    have hlow : ((a / b : Nat) : ℚ) + 1 / (b : ℚ) ≤ (a : ℚ) / (b : ℚ) := by
      rw [hqeq]
      have := div_le_div_of_nonneg_right hrq hbq.le
      linarith
    have hhigh : (a : ℚ) / (b : ℚ) ≤ ((a / b : Nat) : ℚ) + 1 - 1 / (b : ℚ) := by
      rw [hqeq]
      have h1 := div_le_div_of_nonneg_right hrb hbq.le
      rw [add_div, div_self hbq.ne'] at h1
      linarith
    have hqpos : (0 : ℚ) < (a : ℚ) / (b : ℚ) := by
      have : (0 : ℚ) < 1 / (b : ℚ) := by positivity
      have : (0 : ℚ) ≤ ((a / b : Nat) : ℚ) := by positivity
      linarith
    have hqb : (a : ℚ) / (b : ℚ) * (b : ℚ) < 2 ^ 24 := by
      rw [div_mul_cancel₀ _ hbq.ne']
      exact_mod_cast ha
    have hu := ulpAt_half_lt _ hqpos (b : ℚ) hbq (by exact_mod_cast hb) hqb
    obtain ⟨e1, e2⟩ := roundMagnitude_error 24 (-126) ((a : ℚ) / (b : ℚ))
    rw [hfl]
    constructor <;> linarith


theorem float64_intCast (n : Int) (hn : n.natAbs < 2 ^ 53) : float64 (n : ℚ) = n :=
  roundBinary_intCast 53 (-1022) n (by norm_num) (by norm_num) hn

theorem float32_natCast (n : Nat) (hn : n < 2 ^ 24) : float32 (n : ℚ) = n := by
  have := float32_intCast (n : Int) (by simpa using hn)
  simpa using this

theorem roundHalfEven_eval (q : ℚ) (k : Int) (h1 : (k : ℚ) - 1 / 2 < q)
    (h2 : q < (k : ℚ) + 1 / 2) : roundHalfEven q = k := by
  obtain ⟨e1, e2⟩ := roundHalfEven_error q
  have a : ((roundHalfEven q : Int) : ℚ) < ((k + 1 : Int) : ℚ) := by push_cast; linarith
  have b : ((k : Int) : ℚ) < ((roundHalfEven q + 1 : Int) : ℚ) := by push_cast; linarith
  have a' := Int.cast_lt.mp a
  have b' := Int.cast_lt.mp b
  omega

/-- Evaluation of `float32` on a positive value of known binary exponent `e`
whose quotient by the unit in the last place is nearest to the integer `k`. -/
theorem float32_eval (q : ℚ) (e k : Int) (h1 : (2 : ℚ) ^ e ≤ q) (h2 : q < (2 : ℚ) ^ (e + 1))
    (he : -126 ≤ e) (hk1 : (k : ℚ) - 1 / 2 < q / (2 : ℚ) ^ (e - 23))
    (hk2 : q / (2 : ℚ) ^ (e - 23) < (k : ℚ) + 1 / 2) :
    float32 q = (k : ℚ) * (2 : ℚ) ^ (e - 23) := by
  have hq : 0 < q := lt_of_lt_of_le (by positivity) h1
  unfold float32 roundBinary
  rw [if_neg (not_lt.mpr hq.le), roundMagnitude_eval 24 (-126) h1 h2 he]
  have h23 : e - (((24 : Nat) : Int) - 1) = e - 23 := by norm_num
  rw [h23, roundHalfEven_eval _ k hk1 hk2]

theorem sortFocals_perm (focals : List ℚ) : (sortFocals focals).Perm focals :=
  List.perm_insertionSort _ focals

theorem sortFocals_sorted (focals : List ℚ) :
    (sortFocals focals).Sorted (fun a b => a ≤ b) :=
  List.sorted_insertionSort _ focals

theorem sortFocals_unique (focals sorted : List ℚ) (hp : sorted.Perm focals)
    (hs : sorted.Sorted (fun a b => a ≤ b)) : sortFocals focals = sorted :=
  List.eq_of_perm_of_sorted ((sortFocals_perm focals).trans hp.symm)
    (sortFocals_sorted focals) hs

theorem sortFocals_congr (focals focals' : List ℚ) (hp : focals'.Perm focals) :
    sortFocals focals' = sortFocals focals :=
  sortFocals_unique focals' (sortFocals focals) ((sortFocals_perm focals).trans hp.symm)
    (sortFocals_sorted focals)

theorem float32_small (n : Nat) (hn : n < 2 ^ 24) : float32 ((n : Int) : ℚ) = (n : Int) :=
  float32_intCast (n : Int) (by simpa using hn)

/-- C1 fails on the single focal length `12295420929 / 4194304`
(2931.456787347...), a binary64 value with more than 24 significant bits: the
computed scale is `12007247 / 4096`, its rounding to binary32, not the middle
element itself. -/
theorem warpedImageScale_rounds_middle :
    warpedImageScale [12295420929 / 4194304] = some (12007247 / 4096) ∧
    warpedImageScale [12295420929 / 4194304] ≠ some (12295420929 / 4194304) := by
  have hfl : float32 (12295420929 / 4194304) = 12007247 / 4096 := by
    rw [float32_eval (12295420929 / 4194304) 11 12007247 (by norm_num) (by norm_num)
      (by norm_num) (by norm_num) (by norm_num)]
    norm_num
  have h : warpedImageScale [12295420929 / 4194304] = some (12007247 / 4096) := by
    simp [warpedImageScale, sortFocals, hfl]
  refine ⟨h, ?_⟩
  rw [h]
  norm_num

/-- C1 as amended: for a non-empty focal list the computed scale is the middle
element of the sorted list rounded to binary32 (odd count), or the binary64 sum
of the two middle elements rounded to binary32 and halved in binary32 (even
count), where the sorted list is any ascending rearrangement of the input; the
result is the same for every rearrangement of the input, it is 25 on
`[10, 20, 30, 40]` and 20 on `[10, 20, 30]`. -/
theorem warpedImageScale_median :
    (∀ focals sorted : List ℚ, focals ≠ [] → sorted.Perm focals →
      sorted.Sorted (fun a b => a ≤ b) →
      ∃ m, warpedImageScale focals = some m ∧
        (focals.length % 2 = 1 → ∃ middle, sorted[focals.length / 2]? = some middle ∧
          m = float32 middle) ∧
        (focals.length % 2 = 0 → ∃ a b, sorted[focals.length / 2 - 1]? = some a ∧
          sorted[focals.length / 2]? = some b ∧
          m = float32 (float32 (float64 (a + b)) * (1 / 2)))) ∧
    (∀ focals focals' : List ℚ, focals'.Perm focals →
      warpedImageScale focals' = warpedImageScale focals) ∧
    warpedImageScale [10, 20, 30, 40] = some 25 ∧
    warpedImageScale [10, 20, 30] = some 20 := by
  have h50 : float64 (50 : ℚ) = 50 := by
    have := float64_intCast 50 (by norm_num)
    norm_num at this ⊢
    exact this
  have f50 : float32 (50 : ℚ) = 50 := by
    have := float32_small 50 (by norm_num)
    norm_num at this ⊢
    exact this
  have f25 : float32 (25 : ℚ) = 25 := by
    have := float32_small 25 (by norm_num)
    norm_num at this ⊢
    exact this
  have f20 : float32 (20 : ℚ) = 20 := by
    have := float32_small 20 (by norm_num)
    norm_num at this ⊢
    exact this
  refine ⟨?_, ?_, ?_, ?_⟩
  · intro focals sorted hne hp hs
    have hsort := sortFocals_unique focals sorted hp hs
    have hlen : sorted.length = focals.length := hp.length_eq
    have hpos : 0 < focals.length := List.length_pos.mpr hne
    unfold warpedImageScale
    simp only [hsort, hlen]
    by_cases hodd : focals.length % 2 = 1
    · have h1 : focals.length / 2 < sorted.length := by omega
      refine ⟨float32 sorted[focals.length / 2], ?_, ?_, ?_⟩
      · simp [hodd, List.getElem?_eq_getElem h1]
      · intro _; exact ⟨_, List.getElem?_eq_getElem h1, rfl⟩
      · intro h0; omega
    · have h1 : focals.length / 2 < sorted.length := by omega
      have h0 : focals.length / 2 - 1 < sorted.length := by omega
      refine ⟨float32 (float32 (float64
        (sorted[focals.length / 2 - 1] + sorted[focals.length / 2])) * (1 / 2)), ?_, ?_, ?_⟩
      · simp [hodd, List.getElem?_eq_getElem h1, List.getElem?_eq_getElem h0]
      · intro h; exact absurd h hodd
      · intro _
        exact ⟨_, _, List.getElem?_eq_getElem h0, List.getElem?_eq_getElem h1, rfl⟩
  · intro focals focals' hp
    unfold warpedImageScale
    rw [sortFocals_congr focals focals' hp]
  · have hs : sortFocals [10, 20, 30, 40] = [10, 20, 30, 40] := by decide
    unfold warpedImageScale
    simp only [hs]
    simp only [List.length_cons, List.length_nil]
    norm_num [h50, f50, f25]
  · have hs : sortFocals [10, 20, 30] = [10, 20, 30] := by decide
    unfold warpedImageScale
    simp only [hs]
    simp only [List.length_cons, List.length_nil]
    norm_num [f20]

/-- Instance of the amended C1 on the focal list `[40, 10, 30, 20]` with sorted
form `[10, 20, 30, 40]`. -/
theorem warpedImageScale_median_witness :
    ∃ m, warpedImageScale [40, 10, 30, 20] = some m ∧
      (([40, 10, 30, 20] : List ℚ).length % 2 = 1 → ∃ middle,
        ([10, 20, 30, 40] : List ℚ)[([40, 10, 30, 20] : List ℚ).length / 2]? = some middle ∧
        m = float32 middle) ∧
      (([40, 10, 30, 20] : List ℚ).length % 2 = 0 → ∃ a b,
        ([10, 20, 30, 40] : List ℚ)[([40, 10, 30, 20] : List ℚ).length / 2 - 1]? = some a ∧
        ([10, 20, 30, 40] : List ℚ)[([40, 10, 30, 20] : List ℚ).length / 2]? = some b ∧
        m = float32 (float32 (float64 (a + b)) * (1 / 2))) :=
  warpedImageScale_median.1 [40, 10, 30, 20] [10, 20, 30, 40] (by decide) (by decide)
    (by decide)

/-! ### Corner list -/

theorem pointSelected_corners (cv : OpenCV) (s : CalibrateArena) (point : QPoint) :
    (pointSelected cv s point).1.arenaCorners =
      if s.arenaCorners.length < 4 then s.arenaCorners ++ [point] else s.arenaCorners := by
  unfold pointSelected
  by_cases h : s.arenaCorners.length < 4 <;> simp [h]

theorem resetPoint_corners (cv : OpenCV) (s : CalibrateArena) :
    (resetPoint cv s).1.arenaCorners = s.arenaCorners.dropLast := by
  unfold resetPoint
  by_cases h : s.arenaCorners.length > 0
  · simp [h]
  · have h0 : s.arenaCorners = [] := List.length_eq_zero.mp (by omega)
    simp [h0]

theorem cornerCall_length_le (cv : OpenCV) (s : CalibrateArena) (call : CornerCall)
    (h : s.arenaCorners.length ≤ 4) : (call.apply cv s).arenaCorners.length ≤ 4 := by
  cases call with
  | pointSelected point =>
    simp only [CornerCall.apply, pointSelected_corners]
    split
    · simp; omega
    · exact h
  | resetPoint =>
    simp only [CornerCall.apply, resetPoint_corners, List.length_dropLast]
    omega

theorem runCornerCalls_length_le (cv : OpenCV) (calls : List CornerCall) :
    ∀ s : CalibrateArena, s.arenaCorners.length ≤ 4 →
      (runCornerCalls cv s calls).arenaCorners.length ≤ 4 := by
  induction calls with
  | nil => intro s h; exact h
  | cons call rest ih =>
    intro s h
    exact ih (call.apply cv s) (cornerCall_length_le cv s call h)

/-- C4: on a session whose corner list holds four entries, `resetPoint` followed
by `pointSelected(p)` with `p` the former last entry gives back the original
corner list, and no other member of the session has changed. -/
theorem reset_then_select_restores (cv : OpenCV) (s : CalibrateArena) (p : QPoint)
    (hlen : s.arenaCorners.length = 4) (hlast : s.arenaCorners.getLast? = some p) :
    (pointSelected cv (resetPoint cv s).1 p).1.arenaCorners = s.arenaCorners ∧
    (pointSelected cv (resetPoint cv s).1 p).1 = s := by
  have hne : s.arenaCorners ≠ [] := by
    intro h; rw [h] at hlen; simp at hlen
  have hsplit : s.arenaCorners.dropLast ++ [p] = s.arenaCorners := by
    have hp : s.arenaCorners.getLast hne = p := by
      rw [List.getLast?_eq_getLast _ hne] at hlast
      exact Option.some.inj hlast
    rw [← hp]
    exact List.dropLast_append_getLast hne
  have hstate : (pointSelected cv (resetPoint cv s).1 p).1 = s := by
    unfold pointSelected resetPoint
    have h1 : s.arenaCorners.length > 0 := by omega
    have h2 : s.arenaCorners.dropLast.length < 4 := by
      rw [List.length_dropLast]; omega
    simp [h1, h2, hsplit]
    intro h
    omega
  exact ⟨by rw [hstate], hstate⟩

/-- Instance of C4 on the default session with the four corners `fourCorners`. -/
theorem reset_then_select_restores_witness :
    (pointSelected sampleCV
        (resetPoint sampleCV { arenaCorners := fourCorners }).1 ⟨550, 550⟩).1.arenaCorners
      = fourCorners ∧
    (pointSelected sampleCV
        (resetPoint sampleCV { arenaCorners := fourCorners }).1 ⟨550, 550⟩).1
      = { arenaCorners := fourCorners } :=
  reset_then_select_restores sampleCV { arenaCorners := fourCorners } ⟨550, 550⟩
    (by decide) (by decide)

/-- C5: from a session with an empty corner list, every sequence of
`pointSelected` and `resetPoint` calls leaves at most four corners;
`pointSelected` appends the point at the end below four entries and changes
nothing at four; `resetPoint` removes exactly the last entry of a non-empty list
and leaves an empty list empty. -/
theorem arenaCorners_capped (cv : OpenCV) :
    (∀ (s : CalibrateArena) (calls : List CornerCall), s.arenaCorners = [] →
      (runCornerCalls cv s calls).arenaCorners.length ≤ 4) ∧
    (∀ (s : CalibrateArena) (point : QPoint), s.arenaCorners.length < 4 →
      (pointSelected cv s point).1.arenaCorners = s.arenaCorners ++ [point]) ∧
    (∀ (s : CalibrateArena) (point : QPoint), s.arenaCorners.length = 4 →
      (pointSelected cv s point).1.arenaCorners = s.arenaCorners) ∧
    (∀ (s : CalibrateArena) (front : List QPoint) (last : QPoint),
      s.arenaCorners = front ++ [last] → (resetPoint cv s).1.arenaCorners = front) ∧
    (∀ s : CalibrateArena, s.arenaCorners = [] → (resetPoint cv s).1.arenaCorners = []) := by
  refine ⟨?_, ?_, ?_, ?_, ?_⟩
  · intro s calls h
    exact runCornerCalls_length_le cv calls s (by simp [h])
  · intro s point h
    rw [pointSelected_corners, if_pos h]
  · intro s point h
    rw [pointSelected_corners, if_neg (by omega)]
  · intro s front last h
    rw [resetPoint_corners, h, List.dropLast_concat]
  · intro s h
    rw [resetPoint_corners, h]
    rfl

/-- Instance of C5: five clicks and one reset on the default session. -/
theorem arenaCorners_capped_witness :
    (runCornerCalls sampleCV {}
      [.pointSelected ⟨1, 1⟩, .pointSelected ⟨2, 2⟩, .pointSelected ⟨3, 3⟩,
       .pointSelected ⟨4, 4⟩, .pointSelected ⟨5, 5⟩, .resetPoint]).arenaCorners.length ≤ 4 :=
  (arenaCorners_capped sampleCV).1 {} _ rfl

/-! ### Squaring -/

/-- C9: with fewer than four corners `squareArena` emits its error message and
returns the session unchanged, whatever the worker state. -/
theorem squareArena_few_corners (cv : OpenCV) (s : CalibrateArena)
    (h : s.arenaCorners.length < 4) :
    squareArena cv s = (s, [Effect.errorMessage
      "4 points needed to square - select them on the stitched image in the previous tab"]) := by
  unfold squareArena
  rw [if_pos h]

/-- Instance of C9: three corners and a finished worker with a valid composite. -/
theorem squareArena_few_corners_witness :
    squareArena sampleCV
        { arenaCorners := [⟨50, 50⟩, ⟨550, 50⟩, ⟨50, 550⟩], thread := some finishedThread }
      = ({ arenaCorners := [⟨50, 50⟩, ⟨550, 50⟩, ⟨50, 550⟩], thread := some finishedThread },
        [Effect.errorMessage
          "4 points needed to square - select them on the stitched image in the previous tab"]) :=
  squareArena_few_corners sampleCV
    { arenaCorners := [⟨50, 50⟩, ⟨550, 50⟩, ⟨50, 550⟩], thread := some finishedThread }
    (by decide)

/-- The outcome of `squareArena` on the path that performs the squaring. -/
theorem squareArena_runs (cv : OpenCV) (s : CalibrateArena) (t : StitchThread)
    (hcorners : 4 ≤ s.arenaCorners.length) (hthread : s.thread = some t)
    (hdone : t.isRunning = false) (hwidth : 100 ≤ t.finalImage.size.width) :
    squareArena cv s =
      ({ s with fullSizeFinalIm := cv.cvtColor (cv.warpPerspective t.finalImage
          (cv.getPerspectiveTransform
            (squareArenaInputQuad t.finalImage.size s.smallImageSize s.arenaCorners)
            outputQuad) ⟨2000, 2000⟩) },
        [Effect.setSquaredImage (cv.resize (cv.cvtColor (cv.warpPerspective t.finalImage
          (cv.getPerspectiveTransform
            (squareArenaInputQuad t.finalImage.size s.smallImageSize s.arenaCorners)
            outputQuad) ⟨2000, 2000⟩)) ⟨s.smallImageSize.x * 2, s.smallImageSize.y * 2⟩),
         Effect.errorMessage "Squaring complete"]) := by
  have hlen : ¬ s.arenaCorners.length < 4 := by omega
  have hw : ¬ t.finalImage.size.width < 100 := by omega
  unfold squareArena
  simp [hlen, hthread, hdone, hw]

/-- C8: when `squareArena` runs the squaring (four or more corners, a worker
that is not running, a composite at least 100 wide) the stored corrected image
is 2000 by 2000; it is the warp by the transform that sends the classified
quad to `(0,0)`, `(2000,0)`, `(0,2000)`, `(2000,2000)` in the slots for top-left,
top-right, bottom-left, bottom-right, and a centre that meets a role condition
is stored in the slot of that role. -/
theorem squareArena_output (cv : OpenCV) (s : CalibrateArena) (t : StitchThread)
    (hcorners : 4 ≤ s.arenaCorners.length) (hthread : s.thread = some t)
    (hdone : t.isRunning = false) (hwidth : 100 ≤ t.finalImage.size.width) :
    (squareArena cv s).1.fullSizeFinalIm.size = ⟨2000, 2000⟩ ∧
    (squareArena cv s).1.fullSizeFinalIm =
      cv.cvtColor (cv.warpPerspective t.finalImage
        (cv.getPerspectiveTransform
          (squareArenaInputQuad t.finalImage.size s.smallImageSize s.arenaCorners)
          ⟨⟨0, 0⟩, ⟨2000, 0⟩, ⟨0, 2000⟩, ⟨2000, 2000⟩⟩)
        ⟨2000, 2000⟩) ∧
    (∀ (q : Quad) (center : Point),
      (isTopLeft t.finalImage.size center →
        (classifyCorner t.finalImage.size q center).q0 = center.toPoint2f) ∧
      (isTopRight t.finalImage.size center →
        (classifyCorner t.finalImage.size q center).q1 = center.toPoint2f) ∧
      (isBottomLeft t.finalImage.size center →
        (classifyCorner t.finalImage.size q center).q2 = center.toPoint2f) ∧
      (isBottomRight t.finalImage.size center →
        (classifyCorner t.finalImage.size q center).q3 = center.toPoint2f)) := by
  have hrun := squareArena_runs cv s t hcorners hthread hdone hwidth
  refine ⟨?_, ?_, ?_⟩
  · rw [hrun]; rfl
  · rw [hrun]; rfl
  · intro q center
    refine ⟨?_, ?_, ?_, ?_⟩ <;> intro h <;> unfold classifyCorner <;>
      simp only [h, if_true] <;> split_ifs <;> rfl

/-- Instance of C8: the four corners `fourCorners` and a finished worker with a
1536 by 1536 composite. -/
theorem squareArena_output_witness :
    (squareArena sampleCV
      { arenaCorners := fourCorners, thread := some finishedThread }).1.fullSizeFinalIm.size
      = ⟨2000, 2000⟩ :=
  (squareArena_output sampleCV { arenaCorners := fourCorners, thread := some finishedThread }
    finishedThread (by decide) rfl rfl (by decide)).1

/-! ### Feature extraction and the stitch request -/

theorem sizeMismatch_false_iff (images : List Mat) :
    sizeMismatch images = false ↔ ∀ m ∈ images, ∀ n ∈ images, m.size = n.size := by
  cases images with
  | nil => simp [sizeMismatch]
  | cons first rest =>
    simp only [sizeMismatch, List.any_eq_false, decide_eq_true_eq, ne_eq, not_not,
      List.mem_cons, forall_eq_or_imp, true_and]
    constructor
    · intro h
      refine ⟨fun n hn => (h n hn).symm, fun m hm => ⟨h m hm, fun n hn => ?_⟩⟩
      rw [h m hm, h n hn]
    · intro h m hm
      exact (h.2 m hm).1

/-- C6: with an image count other than 4, or with four images two of which have
different sizes, `extractFeatures` emits one error message and returns the
session unchanged (features, pairwise matches and `goodMatches` included); the
outcome does not depend on any OpenCV primitive. -/
theorem extractFeatures_rejects (cv : OpenCV) (s : CalibrateArena)
    (h : s.cameraCalibrationImages.length ≠ 4 ∨
      ∃ m ∈ s.cameraCalibrationImages, ∃ n ∈ s.cameraCalibrationImages, m.size ≠ n.size) :
    (∃ msg, ∀ cv' : OpenCV, extractFeatures cv' s = (s, [Effect.errorMessage msg])) ∧
    (extractFeatures cv s).1 = s ∧
    (extractFeatures cv s).1.features = s.features ∧
    (extractFeatures cv s).1.pairwise_matches = s.pairwise_matches ∧
    (extractFeatures cv s).1.goodMatches = s.goodMatches := by
  have key : ∃ msg, ∀ cv' : OpenCV, extractFeatures cv' s = (s, [Effect.errorMessage msg]) := by
    by_cases hcount : s.cameraCalibrationImages.length ≠ 4
    · exact ⟨_, fun cv' => by unfold extractFeatures; rw [if_pos hcount]⟩
    · have hmis : sizeMismatch s.cameraCalibrationImages = true := by
        rcases h with h | ⟨m, hm, n, hn, hne⟩
        · exact absurd h hcount
        · by_contra hfalse
          rw [Bool.not_eq_true] at hfalse
          exact hne ((sizeMismatch_false_iff _).mp hfalse m hm n hn)
      exact ⟨_, fun cv' => by unfold extractFeatures; rw [if_neg hcount, if_pos hmis]⟩
  obtain ⟨msg, hmsg⟩ := key
  have hs : (extractFeatures cv s).1 = s := by rw [hmsg cv]
  exact ⟨⟨msg, hmsg⟩, hs, by rw [hs], by rw [hs], by rw [hs]⟩

/-- Instance of C6: four images, the last one of another size, in a session that
holds good matches. -/
theorem extractFeatures_rejects_witness :
    (extractFeatures sampleCV
      { cameraCalibrationImages :=
          [⟨⟨2048, 1536⟩, 1⟩, ⟨⟨2048, 1536⟩, 2⟩, ⟨⟨2048, 1536⟩, 3⟩, ⟨⟨1024, 768⟩, 4⟩],
        goodMatches := true }).1.goodMatches = true :=
  (extractFeatures_rejects sampleCV
    { cameraCalibrationImages :=
        [⟨⟨2048, 1536⟩, 1⟩, ⟨⟨2048, 1536⟩, 2⟩, ⟨⟨2048, 1536⟩, 3⟩, ⟨⟨1024, 768⟩, 4⟩],
      goodMatches := true }
    (Or.inr ⟨⟨⟨2048, 1536⟩, 1⟩, by decide, ⟨⟨1024, 768⟩, 4⟩, by decide, by decide⟩)).2.2.2.2

theorem extractFeatures_accepts (cv : OpenCV) (s : CalibrateArena)
    (hcount : s.cameraCalibrationImages.length = 4)
    (hsize : ∀ m ∈ s.cameraCalibrationImages, ∀ n ∈ s.cameraCalibrationImages,
      m.size = n.size) :
    (extractFeatures cv s).1.goodMatches = !decide ((biggestComponent cv s).2.2.length < 4) ∧
    ((biggestComponent cv s).2.2.length < 4 →
      (extractFeatures cv s).2.getLast? = some (Effect.errorMessage
        "Cannot match all the images: try reducing the feature and/or match thresholds")) := by
  have hmis : sizeMismatch s.cameraCalibrationImages = false :=
    (sizeMismatch_false_iff _).mpr hsize
  unfold extractFeatures
  simp only [hcount, ne_eq, not_true_eq_false, if_false, hmis, Bool.false_eq_true]
  have hb : biggestComponent cv { s with goodMatches := false } = biggestComponent cv s := rfl
  rw [hb]
  by_cases hlt : (biggestComponent cv s).2.2.length < 4
  · simp [hlt]
  · simp [hlt]

/-- C7: when validation passes and the biggest component returned by the matcher
stage has fewer than four indices, `extractFeatures` returns with `goodMatches`
false (whatever it was) and ends with its matching error message; with
`goodMatches` false `stitchImages` only emits its error message and returns the
session unchanged, so the worker is neither started nor terminated; and, the
component never holding more than four indices, `goodMatches` is true on return
exactly when it holds four. -/
theorem connectivity_failure (cv : OpenCV) (s : CalibrateArena)
    (hcount : s.cameraCalibrationImages.length = 4)
    (hsize : ∀ m ∈ s.cameraCalibrationImages, ∀ n ∈ s.cameraCalibrationImages,
      m.size = n.size)
    (hle : (biggestComponent cv s).2.2.length ≤ 4) :
    ((biggestComponent cv s).2.2.length < 4 →
      (extractFeatures cv s).1.goodMatches = false ∧
      (extractFeatures cv s).2.getLast? = some (Effect.errorMessage
        "Cannot match all the images: try reducing the feature and/or match thresholds")) ∧
    (∀ (s' : CalibrateArena) (sender : Option Nat) (stopped : Bool), s'.goodMatches = false →
      stitchImages s' sender stopped =
        (s', [Effect.errorMessage "No good matches, please repeat feature extraction"])) ∧
    ((extractFeatures cv s).1.goodMatches = true ↔ (biggestComponent cv s).2.2.length = 4) := by
  obtain ⟨hgood, hmsg⟩ := extractFeatures_accepts cv s hcount hsize
  refine ⟨?_, ?_, ?_⟩
  · intro hlt
    exact ⟨by rw [hgood]; simp [hlt], hmsg hlt⟩
  · intro s' sender stopped hbad
    unfold stitchImages
    simp [hbad]
  · rw [hgood]
    simp only [Bool.not_eq_true', decide_eq_false_iff_not]
    omega

/-- Instance of C7: four equal-size images whose biggest component holds two
images, in a session that held good matches and a running worker. -/
theorem connectivity_failure_witness :
    ((extractFeatures splitCV
        { cameraCalibrationImages := fourImages, goodMatches := true }).1.goodMatches = false ∧
      (extractFeatures splitCV
        { cameraCalibrationImages := fourImages, goodMatches := true }).2.getLast? =
        some (Effect.errorMessage
          "Cannot match all the images: try reducing the feature and/or match thresholds")) ∧
    stitchImages (extractFeatures splitCV
        { cameraCalibrationImages := fourImages, goodMatches := true }).1 (some 0) true =
      ((extractFeatures splitCV
        { cameraCalibrationImages := fourImages, goodMatches := true }).1,
        [Effect.errorMessage "No good matches, please repeat feature extraction"]) :=
  have h := connectivity_failure splitCV
    { cameraCalibrationImages := fourImages, goodMatches := true } (by decide) (by decide)
    (by decide)
  have h1 := h.1 (by decide)
  ⟨h1, h.2.1 _ (some 0) true h1.1⟩

/-! ### Corner classification -/

theorem classifyCorner_q0 (sz : Size) (q : Quad) (c : Point) :
    (classifyCorner sz q c).q0 = if isTopLeft sz c then c.toPoint2f else q.q0 := by
  unfold classifyCorner
  split_ifs <;> rfl

theorem classifyCorner_q1 (sz : Size) (q : Quad) (c : Point) :
    (classifyCorner sz q c).q1 = if isTopRight sz c then c.toPoint2f else q.q1 := by
  unfold classifyCorner
  split_ifs <;> rfl

theorem classifyCorner_q2 (sz : Size) (q : Quad) (c : Point) :
    (classifyCorner sz q c).q2 = if isBottomLeft sz c then c.toPoint2f else q.q2 := by
  unfold classifyCorner
  split_ifs <;> rfl

theorem classifyCorner_q3 (sz : Size) (q : Quad) (c : Point) :
    (classifyCorner sz q c).q3 = if isBottomRight sz c then c.toPoint2f else q.q3 := by
  unfold classifyCorner
  split_ifs <;> rfl

/-- A slot that each iteration overwrites exactly under a condition holds, after
the loop, the last centre meeting the condition, or its initial value. -/
theorem classifyCenters_slot (sz : Size) (slot : Quad → Point2f) (cond : Point → Bool)
    (hstep : ∀ q c, slot (classifyCorner sz q c) = if cond c then c.toPoint2f else slot q) :
    ∀ (centers : List Point) (q : Quad),
      slot (classifyCenters sz q centers) =
        match lastSuch cond centers with
        | some c => c.toPoint2f
        | none => slot q := by
  intro centers
  induction centers with
  | nil => intro q; rfl
  | cons c rest ih =>
    intro q
    have hfold : classifyCenters sz q (c :: rest) =
        classifyCenters sz (classifyCorner sz q c) rest := rfl
    rw [hfold, ih, hstep]
    simp only [lastSuch]
    cases lastSuch cond rest with
    | some later => rfl
    | none => by_cases hc : cond c = true <;> simp [hc]

theorem lastSuch_some (cond : Point → Bool) :
    ∀ (centers : List Point) (c : Point), lastSuch cond centers = some c →
      c ∈ centers ∧ cond c = true := by
  intro centers
  induction centers with
  | nil => intro c h; simp [lastSuch] at h
  | cons x rest ih =>
    intro c h
    simp only [lastSuch] at h
    cases hrest : lastSuch cond rest with
    | some later =>
      rw [hrest] at h
      have hc : later = c := Option.some.inj h
      subst hc
      exact ⟨List.mem_cons_of_mem _ (ih later hrest).1, (ih later hrest).2⟩
    | none =>
      rw [hrest] at h
      by_cases hx : cond x = true
      · simp [hx] at h
        subst h
        exact ⟨List.mem_cons_self _ _, hx⟩
      · simp [hx] at h

theorem lastSuch_none (cond : Point → Bool) :
    ∀ centers : List Point, lastSuch cond centers = none →
      ∀ c ∈ centers, cond c = false := by
  intro centers
  induction centers with
  | nil => intro _ c hc; simp at hc
  | cons x rest ih =>
    intro h c hc
    simp only [lastSuch] at h
    cases hrest : lastSuch cond rest with
    | some later => rw [hrest] at h; simp at h
    | none =>
      rw [hrest] at h
      by_cases hx : cond x = true
      · simp [hx] at h
      · rcases List.mem_cons.mp hc with hcx | hcr
        · rw [hcx]; simpa using hx
        · exact ih hrest c hcr

/-- When exactly one centre of the list meets the condition, it is the last one
that does. -/
theorem lastSuch_unique (cond : Point → Bool) (centers : List Point) (a : Point)
    (hmem : a ∈ centers) (ha : cond a = true)
    (huniq : ∀ x ∈ centers, cond x = true → x = a) : lastSuch cond centers = some a := by
  cases h : lastSuch cond centers with
  | none =>
    have := lastSuch_none cond centers h a hmem
    rw [ha] at this
    exact absurd this (by decide)
  | some c =>
    obtain ⟨hc, hcond⟩ := lastSuch_some cond centers c h
    rw [huniq c hc hcond]

theorem role_exclusive (sz : Size) (c : Point) :
    (isTopLeft sz c → ¬ isTopRight sz c ∧ ¬ isBottomLeft sz c ∧ ¬ isBottomRight sz c) ∧
    (isTopRight sz c → ¬ isTopLeft sz c ∧ ¬ isBottomLeft sz c ∧ ¬ isBottomRight sz c) ∧
    (isBottomLeft sz c → ¬ isTopLeft sz c ∧ ¬ isTopRight sz c ∧ ¬ isBottomRight sz c) ∧
    (isBottomRight sz c → ¬ isTopLeft sz c ∧ ¬ isTopRight sz c ∧ ¬ isBottomLeft sz c) := by
  unfold isTopLeft isTopRight isBottomLeft isBottomRight
  refine ⟨?_, ?_, ?_, ?_⟩ <;> rintro ⟨hx, hy⟩ <;> refine ⟨?_, ?_, ?_⟩ <;>
    rintro ⟨hx', hy'⟩ <;> first | exact absurd hx (not_lt.mpr hx'.le) | omega

/-- The quad after the loop when each role is met by exactly one centre of the
list: every slot holds the centre of its role. -/
theorem classifyCenters_distinct (sz : Size) (centers : List Point) (a b c d : Point)
    (hperm : centers.Perm [a, b, c, d])
    (ha : isTopLeft sz a) (hb : isTopRight sz b) (hc : isBottomLeft sz c)
    (hd : isBottomRight sz d) (q : Quad) :
    classifyCenters sz q centers =
      ⟨a.toPoint2f, b.toPoint2f, c.toPoint2f, d.toPoint2f⟩ := by
  have hmem : ∀ x, x ∈ centers ↔ x = a ∨ x = b ∨ x = c ∨ x = d := by
    intro x; rw [hperm.mem_iff]; simp
  have ea := (role_exclusive sz a).1 ha
  have eb := (role_exclusive sz b).2.1 hb
  have ec := (role_exclusive sz c).2.2.1 hc
  have ed := (role_exclusive sz d).2.2.2 hd
  have h0 : (classifyCenters sz q centers).q0 = a.toPoint2f := by
    rw [classifyCenters_slot sz Quad.q0 (fun p => decide (isTopLeft sz p))
      (fun q p => by rw [classifyCorner_q0]; simp) centers q,
      lastSuch_unique _ centers a ((hmem a).mpr (Or.inl rfl)) (by simpa using ha)]
    intro x hx hcond
    have hcond' : isTopLeft sz x := by simpa using hcond
    rcases (hmem x).mp hx with h | h | h | h
    · exact h
    · rw [h] at hcond'; exact absurd hcond' eb.1
    · rw [h] at hcond'; exact absurd hcond' ec.1
    · rw [h] at hcond'; exact absurd hcond' ed.1
  have h1 : (classifyCenters sz q centers).q1 = b.toPoint2f := by
    rw [classifyCenters_slot sz Quad.q1 (fun p => decide (isTopRight sz p))
      (fun q p => by rw [classifyCorner_q1]; simp) centers q,
      lastSuch_unique _ centers b ((hmem b).mpr (Or.inr (Or.inl rfl))) (by simpa using hb)]
    intro x hx hcond
    have hcond' : isTopRight sz x := by simpa using hcond
    rcases (hmem x).mp hx with h | h | h | h
    · rw [h] at hcond'; exact absurd hcond' ea.1
    · exact h
    · rw [h] at hcond'; exact absurd hcond' ec.2.1
    · rw [h] at hcond'; exact absurd hcond' ed.2.1
  have h2 : (classifyCenters sz q centers).q2 = c.toPoint2f := by
    rw [classifyCenters_slot sz Quad.q2 (fun p => decide (isBottomLeft sz p))
      (fun q p => by rw [classifyCorner_q2]; simp) centers q,
      lastSuch_unique _ centers c ((hmem c).mpr (Or.inr (Or.inr (Or.inl rfl))))
        (by simpa using hc)]
    intro x hx hcond
    have hcond' : isBottomLeft sz x := by simpa using hcond
    rcases (hmem x).mp hx with h | h | h | h
    · rw [h] at hcond'; exact absurd hcond' ea.2.1
    · rw [h] at hcond'; exact absurd hcond' eb.2.1
    · exact h
    · rw [h] at hcond'; exact absurd hcond' ed.2.2
  have h3 : (classifyCenters sz q centers).q3 = d.toPoint2f := by
    rw [classifyCenters_slot sz Quad.q3 (fun p => decide (isBottomRight sz p))
      (fun q p => by rw [classifyCorner_q3]; simp) centers q,
      lastSuch_unique _ centers d ((hmem d).mpr (Or.inr (Or.inr (Or.inr rfl))))
        (by simpa using hd)]
    intro x hx hcond
    have hcond' : isBottomRight sz x := by simpa using hcond
    rcases (hmem x).mp hx with h | h | h | h
    · rw [h] at hcond'; exact absurd hcond' ea.2.2
    · rw [h] at hcond'; exact absurd hcond' eb.2.2
    · rw [h] at hcond'; exact absurd hcond' ec.2.2
    · exact h
  cases hq : classifyCenters sz q centers with
  | mk q0 q1 q2 q3 =>
    rw [hq] at h0 h1 h2 h3
    simp only at h0 h1 h2 h3
    rw [h0, h1, h2, h3]

theorem truncToInt_neg (v : ℚ) : truncToInt (-v) = -truncToInt v := by
  unfold truncToInt
  rcases lt_trichotomy v 0 with h | h | h
  · rw [if_pos (by linarith), if_neg (by linarith), Int.floor_neg]
  · subst h; simp
  · rw [if_neg (by linarith), if_pos (by linarith), Int.ceil_neg]

theorem truncToInt_between (v : ℚ) (t : Nat) (h1 : (t : ℚ) ≤ v) (h2 : v < (t : ℚ) + 1) :
    truncToInt v = t := by
  have hv : 0 ≤ v := le_trans (by positivity) h1
  unfold truncToInt
  rw [if_pos hv, Int.floor_eq_iff]
  exact ⟨by exact_mod_cast h1, by exact_mod_cast h2⟩

/-- The truncation of the rounded quotient of two integers below `2 ^ 24` in
magnitude is their quotient truncated toward zero. -/
theorem truncToInt_float32_div (a d : Int) (ha : a.natAbs < 2 ^ 24) (hd0 : 0 < d)
    (hd : d < 2 ^ 24) : truncToInt (float32 ((a : ℚ) / (d : ℚ))) = Int.tdiv a d := by
  obtain ⟨m, rfl⟩ := Int.eq_ofNat_of_zero_le hd0.le
  have hm0 : 0 < m := by exact_mod_cast hd0
  have hm : m < 2 ^ 24 := by exact_mod_cast hd
  have key : ∀ n : Nat, n < 2 ^ 24 →
      truncToInt (float32 ((n : ℚ) / (m : ℚ))) = ((n / m : Nat) : Int) := by
    intro n hn
    obtain ⟨b1, b2⟩ := float32_div_between n m hn hm0 hm
    exact truncToInt_between _ _ b1 b2
  rcases le_or_lt 0 a with h | h
  · obtain ⟨n, rfl⟩ := Int.eq_ofNat_of_zero_le h
    have hn : n < 2 ^ 24 := by simpa using ha
    have := key n hn
    simp only [Int.cast_natCast] at this ⊢
    rw [this, Int.tdiv_eq_ediv (Int.ofNat_nonneg n) (Int.ofNat_nonneg m), Int.natCast_div]
  · obtain ⟨n, hn'⟩ := Int.eq_ofNat_of_zero_le (show 0 ≤ -a by omega)
    have ha' : a = -(n : Int) := by omega
    have hn : n < 2 ^ 24 := by subst ha'; simpa using ha
    subst ha'
    have := key n hn
    simp only [Int.cast_neg, Int.cast_natCast, neg_div] at this ⊢
    rw [float32_neg, truncToInt_neg, this, Int.neg_tdiv,
      Int.tdiv_eq_ediv (Int.ofNat_nonneg n) (Int.ofNat_nonneg m), Int.natCast_div]

theorem tdiv_natAbs_le (a d : Int) (hd0 : 0 < d) : (Int.tdiv a d).natAbs ≤ a.natAbs := by
  rcases le_or_lt 0 a with h | h
  · rw [Int.tdiv_eq_ediv h hd0.le]
    have h1 : 0 ≤ a / d := Int.ediv_nonneg h hd0.le
    have h2 : a / d ≤ a := Int.ediv_le_self d h
    omega
  · have : Int.tdiv a d = -(Int.tdiv (-a) d) := by rw [Int.neg_tdiv, neg_neg]
    rw [this, Int.tdiv_eq_ediv (by omega) hd0.le]
    have h1 : 0 ≤ (-a) / d := Int.ediv_nonneg (by omega) hd0.le
    have h2 : (-a) / d ≤ -a := Int.ediv_le_self d (by omega)
    omega

/-- The source expression `float(x) * float(w) / float(d)` converted to `int`,
for operands and product below `2 ^ 24` in magnitude: the integer quotient
truncated toward zero. -/
theorem floatToInt_rescale (x w d : Int) (hx : x.natAbs < 2 ^ 24) (hw : w.natAbs < 2 ^ 24)
    (hxw : (x * w).natAbs < 2 ^ 24) (hd0 : 0 < d) (hd : d < 2 ^ 24) :
    floatToInt (float32 (float32 (float32 (x : ℚ) * float32 (w : ℚ)) / float32 (d : ℚ))) =
      Int.tdiv (x * w) d := by
  have hdn : d.natAbs < 2 ^ 24 := by omega
  rw [float32_intCast x hx, float32_intCast w hw, float32_intCast d hdn]
  have hprod : (x : ℚ) * (w : ℚ) = ((x * w : Int) : ℚ) := by push_cast; rfl
  rw [hprod, float32_intCast (x * w) hxw]
  have ht := truncToInt_float32_div (x * w) d hxw hd0 hd
  have hb := tdiv_natAbs_le (x * w) d hd0
  unfold floatToInt
  rw [ht, if_pos]
  constructor <;> omega

/-- In range, the rescaled centre is the pair of integer quotients truncated
toward zero. -/
theorem convertCoordinates_in_range (finalImage : Size) (smallImageSize : QPoint) (c : QPoint)
    (hx : rescaleInRange finalImage.width smallImageSize.x c.x)
    (hy : rescaleInRange finalImage.height smallImageSize.y c.y) :
    convertCoordinates finalImage smallImageSize c =
      ⟨Int.tdiv (c.x * finalImage.width) (smallImageSize.x * 2),
       Int.tdiv (c.y * finalImage.height) (smallImageSize.y * 2)⟩ := by
  obtain ⟨x1, x2, x3, x4, x5⟩ := hx
  obtain ⟨y1, y2, y3, y4, y5⟩ := hy
  unfold convertCoordinates
  rw [floatToInt_rescale c.x finalImage.width (smallImageSize.x * 2) x1 x2 x3 x4 x5,
    floatToInt_rescale c.y finalImage.height (smallImageSize.y * 2) y1 y2 y3 y4 y5]

/-- In range, a click on a composite shown at full size is its own centre. -/
theorem convertCoordinates_fullSize (W H : Int) (c : QPoint)
    (hx : rescaleInRange (2 * W) W c.x) (hy : rescaleInRange (2 * H) H c.y) :
    convertCoordinates ⟨2 * W, 2 * H⟩ ⟨W, H⟩ c = ⟨c.x, c.y⟩ := by
  rw [convertCoordinates_in_range ⟨2 * W, 2 * H⟩ ⟨W, H⟩ c hx hy]
  have hW : 0 < W * 2 := hx.2.2.2.1
  have hH : 0 < H * 2 := hy.2.2.2.1
  have e1 : Int.tdiv (c.x * (2 * W)) (W * 2) = c.x := by
    rw [show c.x * (2 * W) = c.x * (W * 2) by ring]
    exact Int.mul_tdiv_cancel _ (by omega)
  have e2 : Int.tdiv (c.y * (2 * H)) (H * 2) = c.y := by
    rw [show c.y * (2 * H) = c.y * (H * 2) by ring]
    exact Int.mul_tdiv_cancel _ (by omega)
  show (⟨Int.tdiv (c.x * (2 * W)) (W * 2), Int.tdiv (c.y * (2 * H)) (H * 2)⟩ : Point) = _
  rw [e1, e2]

theorem tdiv_two_bounds (H : Int) :
    2 * Int.tdiv H 2 - 1 ≤ H ∧ H ≤ 2 * Int.tdiv H 2 + 1 := by
  rcases le_or_lt 0 H with h | h
  · rw [Int.tdiv_eq_ediv h (by decide)]; omega
  · have h1 : Int.tdiv H 2 = -((-H) / 2) := by
      have hneg := Int.neg_tdiv (-H) 2
      rw [neg_neg] at hneg
      rw [hneg, Int.tdiv_eq_ediv (by omega) (by decide)]
    rw [h1]; omega

theorem lt_half_iff (x W : Int) : ((x : ℚ) < (W : ℚ) / 2) ↔ 2 * x < W := by
  rw [lt_div_iff₀ (by norm_num : (0 : ℚ) < 2)]
  constructor
  · intro h
    have hc : ((x * 2 : Int) : ℚ) < ((W : Int) : ℚ) := by push_cast; exact h
    have := Int.cast_lt.mp hc
    omega
  · intro h
    have hc : ((x * 2 : Int) : ℚ) < ((W : Int) : ℚ) := Int.cast_lt.mpr (by omega)
    push_cast at hc
    exact hc

theorem gt_half_iff (x W : Int) : ((x : ℚ) > (W : ℚ) / 2) ↔ W < 2 * x := by
  rw [gt_iff_lt, div_lt_iff₀ (by norm_num : (0 : ℚ) < 2)]
  constructor
  · intro h
    have hc : ((W : Int) : ℚ) < ((x * 2 : Int) : ℚ) := by push_cast; exact h
    have := Int.cast_lt.mp hc
    omega
  · intro h
    have hc : ((W : Int) : ℚ) < ((x * 2 : Int) : ℚ) := Int.cast_lt.mpr (by omega)
    push_cast at hc
    exact hc

/-- A centre that meets a role condition of the loop lies strictly inside the
quadrant of that role. -/
theorem role_in_quadrant (sz : Size) (c : Point) :
    (isTopLeft sz c → inQuadrant sz false false c) ∧
    (isTopRight sz c → inQuadrant sz true false c) ∧
    (isBottomLeft sz c → inQuadrant sz false true c) ∧
    (isBottomRight sz c → inQuadrant sz true true c) := by
  have hb := tdiv_two_bounds sz.height
  unfold isTopLeft isTopRight isBottomLeft isBottomRight inQuadrant
  simp only [lt_half_iff, gt_half_iff]
  refine ⟨?_, ?_, ?_, ?_⟩ <;> rintro ⟨hx, hy⟩ <;> simp <;> constructor <;> omega

theorem quadrantOf_eq (sz : Size) (right bottom : Bool) (c : Point)
    (h : inQuadrant sz right bottom c) : quadrantOf sz c = (right, bottom) := by
  unfold inQuadrant at h
  unfold quadrantOf
  obtain ⟨hx, hy⟩ := h
  cases right <;> cases bottom <;> simp at hx hy ⊢ <;> constructor <;> omega

theorem lastSuch_perm (cond : Point → Bool) (l l' : List Point) (hp : l'.Perm l)
    (hu : ∀ x ∈ l, ∀ y ∈ l, cond x = true → cond y = true → x = y) :
    lastSuch cond l' = lastSuch cond l := by
  cases h : lastSuch cond l with
  | none =>
    cases h' : lastSuch cond l' with
    | none => rfl
    | some c =>
      obtain ⟨hc, hcond⟩ := lastSuch_some cond l' c h'
      have := lastSuch_none cond l h c (hp.mem_iff.mp hc)
      rw [hcond] at this
      exact absurd this (by decide)
  | some a =>
    obtain ⟨ha, hcond⟩ := lastSuch_some cond l a h
    exact lastSuch_unique cond l' a (hp.mem_iff.mpr ha) hcond
      (fun x hx hx' => hu x (hp.mem_iff.mp hx) a ha hx' hcond)

/-- With one centre strictly inside each quadrant, the quad after the loop does
not depend on the order of the centres. -/
theorem classifyCenters_perm (sz : Size) (centers centers' : List Point) (a b c d : Point)
    (hperm : centers.Perm [a, b, c, d])
    (ha : inQuadrant sz false false a) (hb : inQuadrant sz true false b)
    (hc : inQuadrant sz false true c) (hd : inQuadrant sz true true d)
    (hperm' : centers'.Perm centers) (q : Quad) :
    classifyCenters sz q centers' = classifyCenters sz q centers := by
  have hmem : ∀ x, x ∈ centers → x = a ∨ x = b ∨ x = c ∨ x = d := by
    intro x hx
    have := hperm.mem_iff.mp hx
    simpa using this
  have ka := quadrantOf_eq sz _ _ a ha
  have kb := quadrantOf_eq sz _ _ b hb
  have kc := quadrantOf_eq sz _ _ c hc
  have kd := quadrantOf_eq sz _ _ d hd
  have huniq : ∀ (right bottom : Bool), ∀ x ∈ centers, ∀ y ∈ centers,
      inQuadrant sz right bottom x → inQuadrant sz right bottom y → x = y := by
    intro right bottom x hx y hy hqx hqy
    have e : quadrantOf sz x = quadrantOf sz y :=
      (quadrantOf_eq sz _ _ x hqx).trans (quadrantOf_eq sz _ _ y hqy).symm
    rcases hmem x hx with h | h | h | h <;> rcases hmem y hy with h' | h' | h' | h' <;>
      rw [h, h'] at e ⊢ <;> simp [ka, kb, kc, kd] at e
  have hrole := role_in_quadrant sz
  apply Quad.ext
  · rw [classifyCenters_slot sz Quad.q0 (fun p => decide (isTopLeft sz p))
        (fun q p => by rw [classifyCorner_q0]; simp),
      classifyCenters_slot sz Quad.q0 (fun p => decide (isTopLeft sz p))
        (fun q p => by rw [classifyCorner_q0]; simp),
      lastSuch_perm _ centers centers' hperm']
    intro x hx y hy hcx hcy
    exact huniq _ _ x hx y hy ((hrole x).1 (by simpa using hcx)) ((hrole y).1 (by simpa using hcy))
  · rw [classifyCenters_slot sz Quad.q1 (fun p => decide (isTopRight sz p))
        (fun q p => by rw [classifyCorner_q1]; simp),
      classifyCenters_slot sz Quad.q1 (fun p => decide (isTopRight sz p))
        (fun q p => by rw [classifyCorner_q1]; simp),
      lastSuch_perm _ centers centers' hperm']
    intro x hx y hy hcx hcy
    exact huniq _ _ x hx y hy ((hrole x).2.1 (by simpa using hcx))
      ((hrole y).2.1 (by simpa using hcy))
  · rw [classifyCenters_slot sz Quad.q2 (fun p => decide (isBottomLeft sz p))
        (fun q p => by rw [classifyCorner_q2]; simp),
      classifyCenters_slot sz Quad.q2 (fun p => decide (isBottomLeft sz p))
        (fun q p => by rw [classifyCorner_q2]; simp),
      lastSuch_perm _ centers centers' hperm']
    intro x hx y hy hcx hcy
    exact huniq _ _ x hx y hy ((hrole x).2.2.1 (by simpa using hcx))
      ((hrole y).2.2.1 (by simpa using hcy))
  · rw [classifyCenters_slot sz Quad.q3 (fun p => decide (isBottomRight sz p))
        (fun q p => by rw [classifyCorner_q3]; simp),
      classifyCenters_slot sz Quad.q3 (fun p => decide (isBottomRight sz p))
        (fun q p => by rw [classifyCorner_q3]; simp),
      lastSuch_perm _ centers centers' hperm']
    intro x hx y hy hcx hcy
    exact huniq _ _ x hx y hy ((hrole x).2.2.2 (by simpa using hcx))
      ((hrole y).2.2.2 (by simpa using hcy))

/-- C2: when the four clicked points rescale to centres strictly inside the four
distinct quadrants of the composite, the quad built by the loop of `squareArena`
is the same for every order of the clicks; when the four centres meet the four
role conditions of the loop, the quad holds them in the slots top-left,
top-right, bottom-left, bottom-right; and on a 1000 by 1000 composite shown at
full size every order of `(100,100)`, `(900,100)`, `(100,900)`, `(900,900)` gives
these four points as top-left, top-right, bottom-left, bottom-right. -/
theorem squareArena_quad_order_independent :
    (∀ (finalImage : Size) (smallImageSize : QPoint) (corners : List QPoint)
      (a b c d : QPoint), corners.Perm [a, b, c, d] →
      inQuadrant finalImage false false (convertCoordinates finalImage smallImageSize a) →
      inQuadrant finalImage true false (convertCoordinates finalImage smallImageSize b) →
      inQuadrant finalImage false true (convertCoordinates finalImage smallImageSize c) →
      inQuadrant finalImage true true (convertCoordinates finalImage smallImageSize d) →
      ∀ corners' : List QPoint, corners'.Perm corners →
        squareArenaInputQuad finalImage smallImageSize corners' =
          squareArenaInputQuad finalImage smallImageSize corners) ∧
    (∀ (finalImage : Size) (smallImageSize : QPoint) (corners : List QPoint)
      (a b c d : QPoint), corners.Perm [a, b, c, d] →
      isTopLeft finalImage (convertCoordinates finalImage smallImageSize a) →
      isTopRight finalImage (convertCoordinates finalImage smallImageSize b) →
      isBottomLeft finalImage (convertCoordinates finalImage smallImageSize c) →
      isBottomRight finalImage (convertCoordinates finalImage smallImageSize d) →
      squareArenaInputQuad finalImage smallImageSize corners =
        ⟨(convertCoordinates finalImage smallImageSize a).toPoint2f,
         (convertCoordinates finalImage smallImageSize b).toPoint2f,
         (convertCoordinates finalImage smallImageSize c).toPoint2f,
         (convertCoordinates finalImage smallImageSize d).toPoint2f⟩) ∧
    (∀ corners : List QPoint,
      corners.Perm [⟨100, 100⟩, ⟨900, 100⟩, ⟨100, 900⟩, ⟨900, 900⟩] →
      squareArenaInputQuad ⟨1000, 1000⟩ ⟨500, 500⟩ corners =
        ⟨⟨100, 100⟩, ⟨900, 100⟩, ⟨100, 900⟩, ⟨900, 900⟩⟩) := by
  have general : ∀ (finalImage : Size) (smallImageSize : QPoint) (corners : List QPoint)
      (a b c d : QPoint), corners.Perm [a, b, c, d] →
      isTopLeft finalImage (convertCoordinates finalImage smallImageSize a) →
      isTopRight finalImage (convertCoordinates finalImage smallImageSize b) →
      isBottomLeft finalImage (convertCoordinates finalImage smallImageSize c) →
      isBottomRight finalImage (convertCoordinates finalImage smallImageSize d) →
      squareArenaInputQuad finalImage smallImageSize corners =
        ⟨(convertCoordinates finalImage smallImageSize a).toPoint2f,
         (convertCoordinates finalImage smallImageSize b).toPoint2f,
         (convertCoordinates finalImage smallImageSize c).toPoint2f,
         (convertCoordinates finalImage smallImageSize d).toPoint2f⟩ := by
    intro finalImage smallImageSize corners a b c d hperm ha hb hc hd
    unfold squareArenaInputQuad
    exact classifyCenters_distinct finalImage _ _ _ _ _
      (hperm.map (convertCoordinates finalImage smallImageSize)) ha hb hc hd {}
  refine ⟨?_, general, ?_⟩
  · intro finalImage smallImageSize corners a b c d hperm ha hb hc hd corners' hperm'
    unfold squareArenaInputQuad
    exact classifyCenters_perm finalImage _ _ _ _ _ _
      (hperm.map (convertCoordinates finalImage smallImageSize)) ha hb hc hd
      (hperm'.map (convertCoordinates finalImage smallImageSize)) {}
  intro corners hperm
  have c1 : convertCoordinates ⟨1000, 1000⟩ ⟨500, 500⟩ ⟨100, 100⟩ = ⟨100, 100⟩ :=
    (convertCoordinates_in_range ⟨1000, 1000⟩ ⟨500, 500⟩ ⟨100, 100⟩ (by decide)
      (by decide)).trans (by decide)
  have c2 : convertCoordinates ⟨1000, 1000⟩ ⟨500, 500⟩ ⟨900, 100⟩ = ⟨900, 100⟩ :=
    (convertCoordinates_in_range ⟨1000, 1000⟩ ⟨500, 500⟩ ⟨900, 100⟩ (by decide)
      (by decide)).trans (by decide)
  have c3 : convertCoordinates ⟨1000, 1000⟩ ⟨500, 500⟩ ⟨100, 900⟩ = ⟨100, 900⟩ :=
    (convertCoordinates_in_range ⟨1000, 1000⟩ ⟨500, 500⟩ ⟨100, 900⟩ (by decide)
      (by decide)).trans (by decide)
  have c4 : convertCoordinates ⟨1000, 1000⟩ ⟨500, 500⟩ ⟨900, 900⟩ = ⟨900, 900⟩ :=
    (convertCoordinates_in_range ⟨1000, 1000⟩ ⟨500, 500⟩ ⟨900, 900⟩ (by decide)
      (by decide)).trans (by decide)
  have h := general ⟨1000, 1000⟩ ⟨500, 500⟩ corners _ _ _ _ hperm
    (by rw [c1]; exact ⟨by norm_num, by decide⟩)
    (by rw [c2]; exact ⟨by norm_num, by decide⟩)
    (by rw [c3]; exact ⟨by norm_num, by decide⟩)
    (by rw [c4]; exact ⟨by norm_num, by decide⟩)
  rw [h, c1, c2, c3, c4]
  simp only [Point.toPoint2f]
  norm_num

/-- Instance of C2: on a 1000 by 1000 composite shown at full size, the clicks
`(100,499)`, `(900,100)`, `(100,900)`, `(900,900)` (one per quadrant) give the
same quad in reverse order; and the four corners of the example clicked in the
order bottom-right, top-left, bottom-left, top-right are classified by
position. -/
theorem squareArena_quad_order_independent_witness :
    squareArenaInputQuad ⟨2 * 500, 2 * 500⟩ ⟨500, 500⟩
        [⟨900, 900⟩, ⟨100, 900⟩, ⟨900, 100⟩, ⟨100, 499⟩] =
      squareArenaInputQuad ⟨2 * 500, 2 * 500⟩ ⟨500, 500⟩
        [⟨100, 499⟩, ⟨900, 100⟩, ⟨100, 900⟩, ⟨900, 900⟩] ∧
    squareArenaInputQuad ⟨1000, 1000⟩ ⟨500, 500⟩
        [⟨900, 900⟩, ⟨100, 100⟩, ⟨100, 900⟩, ⟨900, 100⟩] =
      ⟨⟨100, 100⟩, ⟨900, 100⟩, ⟨100, 900⟩, ⟨900, 900⟩⟩ :=
  ⟨squareArena_quad_order_independent.1 ⟨2 * 500, 2 * 500⟩ ⟨500, 500⟩
      [⟨100, 499⟩, ⟨900, 100⟩, ⟨100, 900⟩, ⟨900, 900⟩]
      ⟨100, 499⟩ ⟨900, 100⟩ ⟨100, 900⟩ ⟨900, 900⟩ (List.Perm.refl _)
      (by rw [convertCoordinates_fullSize 500 500 _ (by decide) (by decide)]; decide)
      (by rw [convertCoordinates_fullSize 500 500 _ (by decide) (by decide)]; decide)
      (by rw [convertCoordinates_fullSize 500 500 _ (by decide) (by decide)]; decide)
      (by rw [convertCoordinates_fullSize 500 500 _ (by decide) (by decide)]; decide)
      _ (by decide),
   squareArena_quad_order_independent.2.2 _ (by decide)⟩

theorem role_exists_iff (sz : Size) (c : Point) :
    (isTopLeft sz c ∨ isTopRight sz c ∨ isBottomLeft sz c ∨ isBottomRight sz c) ↔
      ((c.x : ℚ) ≠ (sz.width : ℚ) / 2 ∧ c.y ≠ Int.tdiv sz.height 2) := by
  unfold isTopLeft isTopRight isBottomLeft isBottomRight
  constructor
  · rintro (⟨hx, hy⟩ | ⟨hx, hy⟩ | ⟨hx, hy⟩ | ⟨hx, hy⟩)
    · exact ⟨ne_of_lt hx, by omega⟩
    · exact ⟨ne_of_gt hx, by omega⟩
    · exact ⟨ne_of_lt hx, by omega⟩
    · exact ⟨ne_of_gt hx, by omega⟩
  · rintro ⟨hx, hy⟩
    rcases lt_or_gt_of_ne hx with hx' | hx' <;> rcases lt_or_gt_of_ne hy with hy' | hy'
    · exact Or.inl ⟨hx', hy'⟩
    · exact Or.inr (Or.inr (Or.inl ⟨hx', hy'⟩))
    · exact Or.inr (Or.inl ⟨hx', hy'⟩)
    · exact Or.inr (Or.inr (Or.inr ⟨hx', hy'⟩))

/-- C10: a click at `(300, 50)` on the 600 by 600 preview of a 1536 by 1536
composite rescales to the centre `(768, 128)`, which lies on the vertical
midline; none of the four role conditions of `squareArena` holds for it, and the
loop iteration leaves every slot of the quad as it was. -/
theorem midline_corner_has_no_role :
    convertCoordinates ⟨1536, 1536⟩ ⟨300, 300⟩ ⟨300, 50⟩ = ⟨768, 128⟩ ∧
    ¬ isTopLeft ⟨1536, 1536⟩ ⟨768, 128⟩ ∧ ¬ isTopRight ⟨1536, 1536⟩ ⟨768, 128⟩ ∧
    ¬ isBottomLeft ⟨1536, 1536⟩ ⟨768, 128⟩ ∧ ¬ isBottomRight ⟨1536, 1536⟩ ⟨768, 128⟩ ∧
    ∀ q : Quad, classifyCorner ⟨1536, 1536⟩ q ⟨768, 128⟩ = q := by
  have hnone := (not_congr (role_exists_iff ⟨1536, 1536⟩ ⟨768, 128⟩)).mpr
    (by intro h; exact h.1 (by norm_num))
  have h0 : ¬ isTopLeft ⟨1536, 1536⟩ ⟨768, 128⟩ := fun h => hnone (Or.inl h)
  have h1 : ¬ isTopRight ⟨1536, 1536⟩ ⟨768, 128⟩ := fun h => hnone (Or.inr (Or.inl h))
  have h2 : ¬ isBottomLeft ⟨1536, 1536⟩ ⟨768, 128⟩ :=
    fun h => hnone (Or.inr (Or.inr (Or.inl h)))
  have h3 : ¬ isBottomRight ⟨1536, 1536⟩ ⟨768, 128⟩ :=
    fun h => hnone (Or.inr (Or.inr (Or.inr h)))
  refine ⟨?_, h0, h1, h2, h3, ?_⟩
  · exact (convertCoordinates_in_range ⟨1536, 1536⟩ ⟨300, 300⟩ ⟨300, 50⟩ (by decide)
      (by decide)).trans (by decide)
  · intro q
    unfold classifyCorner
    simp only [h0, h1, h2, h3, if_false]

/-! ### Panning -/

theorem zoomRect_preview_sized (sx sy : Int) (pos : QPoint) :
    zoomRect ⟨sx, sy⟩ ⟨2 * sx, 2 * sy⟩ pos = ⟨-1, -1, sx * 2, sy * 2⟩ := by
  unfold zoomRect
  simp only
  generalize floatToInt _ = rawWidth
  generalize floatToInt _ = rawHeight
  have hw : (if (if rawWidth < sx then sx else rawWidth) > 2 * sx - sx - 1 then
      2 * sx - sx - 1 else (if rawWidth < sx then sx else rawWidth)) - sx = -1 := by
    split_ifs <;> omega
  have hh : (if (if rawHeight < sy then sy else rawHeight) > 2 * sy - sy - 1 then
      2 * sy - sy - 1 else (if rawHeight < sy then sy else rawHeight)) - sy = -1 := by
    split_ifs <;> omega
  rw [hw, hh]

/-- With an image larger than the preview window by at least one pixel each
way, the rectangle of `zoomMove` has the preview size and is inside the image. -/
theorem zoomRect_inside (small : QPoint) (full : Size) (pos : QPoint)
    (hx : 0 < small.x) (hy : 0 < small.y)
    (hw : 2 * small.x + 1 ≤ full.width) (hh : 2 * small.y + 1 ≤ full.height) :
    (zoomRect small full pos).width = small.x * 2 ∧
    (zoomRect small full pos).height = small.y * 2 ∧
    (zoomRect small full pos).inside full := by
  unfold Rect.inside zoomRect
  simp only
  generalize floatToInt _ = rawWidth
  generalize floatToInt _ = rawHeight
  refine ⟨trivial, trivial, ?_, by omega, ?_, ?_, by omega, ?_⟩ <;> split_ifs <;> omega

/-- C3: in a session built with `smallImageSize = (1000, 1000)`, after
`squareArena` has stored its 2000 by 2000 corrected image (as large as the
preview window), `zoomMove` computes for every focus point the rectangle with
origin `(-1, -1)` and size 2000 by 2000, which is not inside the image, and the
sub-matrix assertion fails. -/
theorem zoomMove_preview_sized_out_of_bounds (cv : OpenCV) (pos : QPoint) :
    (squareArena cv previewSizedSession).1.fullSizeFinalIm.size = ⟨2000, 2000⟩ ∧
    zoomRect ⟨1000, 1000⟩ ⟨2000, 2000⟩ pos = ⟨-1, -1, 2000, 2000⟩ ∧
    ¬ (zoomRect ⟨1000, 1000⟩ ⟨2000, 2000⟩ pos).inside ⟨2000, 2000⟩ ∧
    zoomMove cv (squareArena cv previewSizedSession).1 pos = none := by
  have hrun := squareArena_runs cv previewSizedSession finishedThread
    (by decide) rfl rfl (by decide)
  have hsize : (squareArena cv previewSizedSession).1.fullSizeFinalIm.size = ⟨2000, 2000⟩ := by
    rw [hrun]; rfl
  have hsmall : (squareArena cv previewSizedSession).1.smallImageSize = ⟨1000, 1000⟩ := by
    rw [hrun]; rfl
  have hrect : zoomRect ⟨1000, 1000⟩ ⟨2000, 2000⟩ pos = ⟨-1, -1, 2000, 2000⟩ :=
    zoomRect_preview_sized 1000 1000 pos
  have hout : ¬ (zoomRect ⟨1000, 1000⟩ ⟨2000, 2000⟩ pos).inside ⟨2000, 2000⟩ := by
    rw [hrect]; decide
  refine ⟨hsize, hrect, hout, ?_⟩
  unfold zoomMove
  simp only [hsize, hsmall]
  rw [if_neg hout]

/-! ### Thresholds and image loading -/

/-- C19 fails at slider position 10: `setMatcherThreshold(10)` stores
`13421773 / 134217728`, the binary32 quotient `float(10)/100.0f`, not `10/100`. -/
theorem setMatcherThreshold_rounds :
    (setMatcherThreshold {} 10).matcherThreshold = 13421773 / 134217728 ∧
    (setMatcherThreshold {} 10).matcherThreshold ≠ (10 : ℚ) / 100 := by
  have h10 : float32 ((10 : Int) : ℚ) = ((10 : Int) : ℚ) := float32_intCast 10 (by decide)
  have hq : float32 (((10 : Int) : ℚ) / 100) = 13421773 / 134217728 := by
    rw [float32_eval (((10 : Int) : ℚ) / 100) (-4) 13421773 (by norm_num) (by norm_num)
      (by norm_num) (by norm_num) (by norm_num)]
    norm_num
  have h : (setMatcherThreshold {} 10).matcherThreshold = 13421773 / 134217728 := by
    show float32 (float32 ((10 : Int) : ℚ) / 100) = 13421773 / 134217728
    rw [h10, hq]
  refine ⟨h, ?_⟩
  rw [h]
  norm_num

/-- C19 as amended: `setMatcherThreshold(v)` stores the binary32 quotient
`float(v)/100.0f`, that is `v/100` rounded to binary32 for `v` below `2 ^ 24` in
magnitude, which lies in `[0, 1]` for `v` in `0..100` and is monotone in `v`; `setFeatureFinderThreshold(v)` stores
`v`; a fresh session has detector threshold 10 and matcher confidence `0.6f`,
the value stored for slider position 60; and each setter leaves every other
member as it was. -/
theorem thresholds_stored :
    (∀ (s : CalibrateArena) (v : Int),
      (setMatcherThreshold s v).matcherThreshold = float32 (float32 (v : ℚ) / 100)) ∧
    (∀ (s : CalibrateArena) (v : Int), 0 ≤ v → v ≤ 100 →
      0 ≤ (setMatcherThreshold s v).matcherThreshold ∧
      (setMatcherThreshold s v).matcherThreshold ≤ 1) ∧
    (∀ (s : CalibrateArena) (v w : Int), v ≤ w →
      (setMatcherThreshold s v).matcherThreshold ≤ (setMatcherThreshold s w).matcherThreshold) ∧
    (∀ (s : CalibrateArena) (v : Int),
      (setFeatureFinderThreshold s v).featureFinderThreshold = v) ∧
    (({} : CalibrateArena).featureFinderThreshold = 10 ∧
      ({} : CalibrateArena).matcherThreshold = float32 (6 / 10) ∧
      (setMatcherThreshold {} 60).matcherThreshold = ({} : CalibrateArena).matcherThreshold) ∧
    (∀ (s : CalibrateArena) (v : Int),
      (setMatcherThreshold s v).cameraCalibrationImages = s.cameraCalibrationImages ∧
      (setMatcherThreshold s v).smallImageSize = s.smallImageSize ∧
      (setMatcherThreshold s v).featureFinderThreshold = s.featureFinderThreshold ∧
      (setMatcherThreshold s v).features = s.features ∧
      (setMatcherThreshold s v).pairwise_matches = s.pairwise_matches ∧
      (setMatcherThreshold s v).goodMatches = s.goodMatches ∧
      (setMatcherThreshold s v).arenaCorners = s.arenaCorners ∧
      (setMatcherThreshold s v).fullSizeFinalIm = s.fullSizeFinalIm ∧
      (setMatcherThreshold s v).thread = s.thread ∧
      (setMatcherThreshold s v).stitchButton = s.stitchButton) ∧
    (∀ (s : CalibrateArena) (v : Int),
      (setFeatureFinderThreshold s v).cameraCalibrationImages = s.cameraCalibrationImages ∧
      (setFeatureFinderThreshold s v).smallImageSize = s.smallImageSize ∧
      (setFeatureFinderThreshold s v).matcherThreshold = s.matcherThreshold ∧
      (setFeatureFinderThreshold s v).features = s.features ∧
      (setFeatureFinderThreshold s v).pairwise_matches = s.pairwise_matches ∧
      (setFeatureFinderThreshold s v).goodMatches = s.goodMatches ∧
      (setFeatureFinderThreshold s v).arenaCorners = s.arenaCorners ∧
      (setFeatureFinderThreshold s v).fullSizeFinalIm = s.fullSizeFinalIm ∧
      (setFeatureFinderThreshold s v).thread = s.thread ∧
      (setFeatureFinderThreshold s v).stitchButton = s.stitchButton) ∧
    (∀ (s : CalibrateArena) (v : Int), v.natAbs < 2 ^ 24 →
      (setMatcherThreshold s v).matcherThreshold = float32 ((v : ℚ) / 100)) := by
  have f0 : float32 (0 : ℚ) = 0 := by
    have := float32_intCast 0 (by decide)
    simpa using this
  have f1 : float32 (1 : ℚ) = 1 := by
    have := float32_intCast 1 (by decide)
    simpa using this
  refine ⟨fun _ _ => rfl, ?_, ?_, fun _ _ => rfl, ⟨rfl, rfl, ?_⟩, ?_, ?_, ?_⟩
  · intro s v h0 h100
    have hv : float32 (v : ℚ) = v := float32_intCast v (by omega)
    have h0' : (0 : ℚ) ≤ (v : ℚ) := by exact_mod_cast h0
    have h100' : (v : ℚ) ≤ 100 := by exact_mod_cast h100
    show 0 ≤ float32 (float32 (v : ℚ) / 100) ∧ float32 (float32 (v : ℚ) / 100) ≤ 1
    rw [hv]
    constructor
    · rw [← f0]
      exact float32_mono (by positivity)
    · rw [← f1]
      exact float32_mono (by rw [div_le_one (by norm_num)]; exact h100')
  · intro s v w hvw
    have hvw' : (v : ℚ) ≤ (w : ℚ) := by exact_mod_cast hvw
    show float32 (float32 (v : ℚ) / 100) ≤ float32 (float32 (w : ℚ) / 100)
    exact float32_mono (div_le_div_of_nonneg_right (float32_mono hvw') (by norm_num))
  · show float32 (float32 ((60 : Int) : ℚ) / 100) = float32 (6 / 10)
    rw [float32_intCast 60 (by decide)]
    norm_num
  · intro s v
    exact ⟨rfl, rfl, rfl, rfl, rfl, rfl, rfl, rfl, rfl, rfl⟩
  · intro s v
    exact ⟨rfl, rfl, rfl, rfl, rfl, rfl, rfl, rfl, rfl, rfl⟩
  · intro s v hv
    show float32 (float32 (v : ℚ) / 100) = float32 ((v : ℚ) / 100)
    rw [float32_intCast v hv]

/-- Instance of the amended C19: slider positions 0, 60 and 100 on the fresh
session. -/
theorem thresholds_stored_witness :
    (0 ≤ (setMatcherThreshold {} 100).matcherThreshold ∧
      (setMatcherThreshold {} 100).matcherThreshold ≤ 1) ∧
    (setMatcherThreshold {} 0).matcherThreshold ≤ (setMatcherThreshold {} 60).matcherThreshold :=
  ⟨thresholds_stored.2.1 {} 100 (by decide) (by decide),
   thresholds_stored.2.2.1 {} 0 60 (by decide)⟩

/-- The outcome of `stitchImages` on the path that starts the worker. -/
theorem stitchImages_launches (s : CalibrateArena) (sender : Option Nat) (stopped : Bool)
    (hgood : s.goodMatches = true)
    (hidle : ∀ t, s.thread = some t → t.isRunning = false) :
    stitchImages s sender stopped = launchStitcher s (s.thread.getD {}) sender := by
  unfold stitchImages
  simp only [hgood, Bool.not_true, Bool.false_eq_true, if_false]
  cases hthread : s.thread with
  | none => rfl
  | some t => simp [hidle t hthread]

/-- C18 fails on the session `matchedSession`: after `setMatcherThreshold(10)`,
and after `setFeatureFinderThreshold(50)`, `goodMatches` is still true and the
stored match is still there, and `stitchImages` starts the worker on it. -/
theorem threshold_change_keeps_matches :
    ¬ ((setMatcherThreshold matchedSession 10).goodMatches = false ∨
        (setMatcherThreshold matchedSession 10).pairwise_matches = []) ∧
    ¬ ((setFeatureFinderThreshold matchedSession 50).goodMatches = false ∨
        (setFeatureFinderThreshold matchedSession 50).pairwise_matches = []) ∧
    ((stitchImages (setMatcherThreshold matchedSession 10) none false).1.thread.map
      (fun t => (t.isRunning, t.pairwise_matches))) =
        some (true, matchedSession.pairwise_matches) := by
  refine ⟨?_, ?_, ?_⟩
  · rintro (h | h)
    · exact absurd h (by decide)
    · exact absurd h (by simp [setMatcherThreshold, matchedSession])
  · rintro (h | h)
    · exact absurd h (by decide)
    · exact absurd h (by simp [setFeatureFinderThreshold, matchedSession])
  · rw [stitchImages_launches _ _ _ rfl (by intro t h; exact absurd h (by simp [setMatcherThreshold, matchedSession]))]
    rfl

/-- C18 as amended: each threshold setter leaves `goodMatches`, the features and
the pairwise matches as they were, and when `goodMatches` is true and no worker
is running `stitchImages` after the setter starts the worker on those features
and matches. -/
theorem threshold_setters_keep_matches (s : CalibrateArena) (v : Int) :
    ((setMatcherThreshold s v).goodMatches = s.goodMatches ∧
      (setMatcherThreshold s v).features = s.features ∧
      (setMatcherThreshold s v).pairwise_matches = s.pairwise_matches) ∧
    ((setFeatureFinderThreshold s v).goodMatches = s.goodMatches ∧
      (setFeatureFinderThreshold s v).features = s.features ∧
      (setFeatureFinderThreshold s v).pairwise_matches = s.pairwise_matches) ∧
    (s.goodMatches = true → (∀ t, s.thread = some t → t.isRunning = false) →
      ∀ (sender : Option Nat) (stopped : Bool),
        ∃ t, (stitchImages (setMatcherThreshold s v) sender stopped).1.thread = some t ∧
          t.isRunning = true ∧ t.features = s.features ∧
          t.pairwise_matches = s.pairwise_matches ∧
        ∃ t', (stitchImages (setFeatureFinderThreshold s v) sender stopped).1.thread = some t' ∧
          t'.isRunning = true ∧ t'.features = s.features ∧
          t'.pairwise_matches = s.pairwise_matches) := by
  refine ⟨⟨rfl, rfl, rfl⟩, ⟨rfl, rfl, rfl⟩, ?_⟩
  intro hgood hidle sender stopped
  have h1 := stitchImages_launches (setMatcherThreshold s v) sender stopped hgood hidle
  have h2 := stitchImages_launches (setFeatureFinderThreshold s v) sender stopped hgood hidle
  rw [h1, h2]
  exact ⟨_, rfl, rfl, rfl, rfl, _, rfl, rfl, rfl, rfl⟩

/-- Instance of the amended C18 on `matchedSession`. -/
theorem threshold_setters_keep_matches_witness :
    ∃ t, (stitchImages (setMatcherThreshold matchedSession 10) none false).1.thread = some t ∧
      t.isRunning = true ∧ t.features = matchedSession.features ∧
      t.pairwise_matches = matchedSession.pairwise_matches ∧
    ∃ t', (stitchImages (setFeatureFinderThreshold matchedSession 10) none false).1.thread
        = some t' ∧
      t'.isRunning = true ∧ t'.features = matchedSession.features ∧
      t'.pairwise_matches = matchedSession.pairwise_matches :=
  (threshold_setters_keep_matches matchedSession 10).2.2 rfl
    (by intro t h; exact absurd h (by simp [matchedSession])) none false

/-- C12 fails on `matchedSession`: after `setCalibrationImages` with four other
images `goodMatches` is still true, the features, the pairwise match and the
corners are still stored, and `stitchImages` starts the worker on the new images
with the old features and matches. -/
theorem reload_keeps_matches :
    ¬ ((setCalibrationImages sampleCV matchedSession otherImages).1.goodMatches = false ∧
        (setCalibrationImages sampleCV matchedSession otherImages).1.features = [] ∧
        (setCalibrationImages sampleCV matchedSession otherImages).1.pairwise_matches = [] ∧
        (setCalibrationImages sampleCV matchedSession otherImages).1.arenaCorners = []) ∧
    (setCalibrationImages sampleCV matchedSession otherImages).1.goodMatches = true ∧
    (setCalibrationImages sampleCV matchedSession otherImages).1.arenaCorners = fourCorners ∧
    ((stitchImages (setCalibrationImages sampleCV matchedSession otherImages).1
        none false).1.thread.map
      (fun t => (t.isRunning, t.cameraCalibrationImages, t.features, t.pairwise_matches))) =
        some (true, otherImages, fourFeatures, matchedSession.pairwise_matches) := by
  refine ⟨?_, rfl, rfl, ?_⟩
  · rintro ⟨h, _⟩
    exact absurd h (by decide)
  · rw [stitchImages_launches _ _ _ rfl
      (by intro t h; exact absurd h (by simp [setCalibrationImages, matchedSession]))]
    rfl

/-- No index of an enumeration that starts at 4 or later is below 4. -/
theorem enumFrom_filter_lt_four (l : List Mat) :
    ∀ n : Nat, 4 ≤ n → (l.enumFrom n).filter (fun im => decide (im.1 < 4)) = [] := by
  induction l with
  | nil => intro n _; rfl
  | cons a rest ih =>
    intro n hn
    have hlt : ¬ n < 4 := by omega
    simp only [List.enumFrom_cons, List.filter_cons, hlt, decide_False]
    exact ih (n + 1) (by omega)

/-- The previews emitted by `setCalibrationImages` are those of the first four
images, in order. -/
theorem smallImages_eq (cv : OpenCV) (small : QPoint) (calImgs : List Mat) :
    smallImages cv small calImgs =
      (calImgs.take 4).enum.map (fun im =>
        Effect.setImage im.1 (cv.cvtColor (cv.resize im.2 ⟨small.x, small.y⟩))) := by
  unfold smallImages
  congr 1
  rcases calImgs with _ | ⟨a, _ | ⟨b, _ | ⟨c, _ | ⟨d, rest⟩⟩⟩⟩
  · rfl
  · rfl
  · rfl
  · rfl
  · simp only [List.enum, List.enumFrom_cons, List.take_succ_cons, List.take_zero,
      List.enumFrom_nil]
    have h := enumFrom_filter_lt_four rest 4 (le_refl 4)
    simp [List.filter_cons, h]

/-- C12 as amended: `setCalibrationImages` replaces the stored images and changes
no other member (`goodMatches`, features, pairwise matches, corners, corrected
image and worker stay as they were); it emits, in this order, one preview signal
`setImage i` for each of the first four images `i`, carrying that image resized
to the small-image size and colour-converted, and then the message
`Images loaded`, and nothing else; and when `goodMatches` is true and no worker
is running, `stitchImages` after it starts the worker on the new images with the
features and matches stored before. -/
theorem setCalibrationImages_only_replaces_images (cv : OpenCV) (s : CalibrateArena)
    (calImgs : List Mat) :
    (setCalibrationImages cv s calImgs).1.cameraCalibrationImages = calImgs ∧
    ((setCalibrationImages cv s calImgs).1.goodMatches = s.goodMatches ∧
      (setCalibrationImages cv s calImgs).1.features = s.features ∧
      (setCalibrationImages cv s calImgs).1.pairwise_matches = s.pairwise_matches ∧
      (setCalibrationImages cv s calImgs).1.arenaCorners = s.arenaCorners ∧
      (setCalibrationImages cv s calImgs).1.fullSizeFinalIm = s.fullSizeFinalIm ∧
      (setCalibrationImages cv s calImgs).1.thread = s.thread ∧
      (setCalibrationImages cv s calImgs).1.smallImageSize = s.smallImageSize ∧
      (setCalibrationImages cv s calImgs).1.featureFinderThreshold = s.featureFinderThreshold ∧
      (setCalibrationImages cv s calImgs).1.matcherThreshold = s.matcherThreshold ∧
      (setCalibrationImages cv s calImgs).1.stitchButton = s.stitchButton) ∧
    (setCalibrationImages cv s calImgs).2 =
      (calImgs.take 4).enum.map (fun im =>
        Effect.setImage im.1
          (cv.cvtColor (cv.resize im.2 ⟨s.smallImageSize.x, s.smallImageSize.y⟩))) ++
        [Effect.errorMessage "Images loaded"] ∧
    (setCalibrationImages cv s calImgs).2.length = min calImgs.length 4 + 1 ∧
    (setCalibrationImages cv s calImgs).2.getLast? =
      some (Effect.errorMessage "Images loaded") ∧
    (s.goodMatches = true → (∀ t, s.thread = some t → t.isRunning = false) →
      ∀ (sender : Option Nat) (stopped : Bool),
        ∃ t, (stitchImages (setCalibrationImages cv s calImgs).1 sender stopped).1.thread
            = some t ∧
          t.isRunning = true ∧ t.cameraCalibrationImages = calImgs ∧
          t.features = s.features ∧ t.pairwise_matches = s.pairwise_matches) := by
  have heff : (setCalibrationImages cv s calImgs).2 =
      (calImgs.take 4).enum.map (fun im =>
        Effect.setImage im.1
          (cv.cvtColor (cv.resize im.2 ⟨s.smallImageSize.x, s.smallImageSize.y⟩))) ++
        [Effect.errorMessage "Images loaded"] := by
    show smallImages cv s.smallImageSize calImgs ++ _ = _
    rw [smallImages_eq]
  refine ⟨rfl, ⟨rfl, rfl, rfl, rfl, rfl, rfl, rfl, rfl, rfl, rfl⟩, heff, ?_, ?_, ?_⟩
  · rw [heff]
    simp [List.enum_length, Nat.min_comm]
  · simp [setCalibrationImages]
  · intro hgood hidle sender stopped
    rw [stitchImages_launches (setCalibrationImages cv s calImgs).1 sender stopped hgood hidle]
    exact ⟨_, rfl, rfl, rfl, rfl, rfl⟩

/-- Instance of the amended C12 on `matchedSession`. -/
theorem setCalibrationImages_only_replaces_images_witness :
    ∃ t, (stitchImages (setCalibrationImages sampleCV matchedSession otherImages).1
          none false).1.thread = some t ∧
      t.isRunning = true ∧ t.cameraCalibrationImages = otherImages ∧
      t.features = matchedSession.features ∧
      t.pairwise_matches = matchedSession.pairwise_matches :=
  (setCalibrationImages_only_replaces_images sampleCV matchedSession otherImages).2.2.2.2.2 rfl
    (by intro t h; exact absurd h (by simp [matchedSession])) none false

/-! ### Operations while the worker runs or the composite is degenerate -/

/-- C17 fails on a session with four corners and a running worker that holds the
previous 1536 by 1536 composite: `squareArena` stores no corrected image and
emits nothing, and `pointSelected` and `resetPoint` emit no redraw. -/
theorem running_worker_skips_squaring :
    squareArena sampleCV { arenaCorners := fourCorners, thread := some runningThread } =
      ({ arenaCorners := fourCorners, thread := some runningThread }, []) ∧
    (squareArena sampleCV
      { arenaCorners := fourCorners, thread := some runningThread }).1.fullSizeFinalIm = {} ∧
    (pointSelected sampleCV { thread := some runningThread } ⟨50, 50⟩).2 = [] ∧
    (resetPoint sampleCV
      { arenaCorners := fourCorners, thread := some runningThread }).2 = [] := by
  refine ⟨?_, ?_, ?_, ?_⟩ <;> simp [squareArena, pointSelected, resetPoint, drawPoints,
    fourCorners, runningThread]

/-- The block `// draw points` emits a redraw only when the worker exists and is
not running. -/
theorem drawPoints_nonempty (cv : OpenCV) (s : CalibrateArena) (h : drawPoints cv s ≠ []) :
    ∃ t, s.thread = some t ∧ t.isRunning = false := by
  unfold drawPoints at h
  cases ht : s.thread with
  | none => rw [ht] at h; exact absurd rfl h
  | some t =>
    rw [ht] at h
    rcases Bool.eq_false_or_eq_true t.isRunning with hrun | hrun
    · simp [hrun] at h
    · exact ⟨t, rfl, hrun⟩

/-- C17 as amended: while the worker is running, and likewise while no worker
exists, `squareArena` with four corners returns the session unchanged and emits
nothing (no corrected image, no preview, no message), and `pointSelected` and
`resetPoint` update the corner list and emit no redraw.  Each of the three does
its image work only when the worker exists and is not running: whenever
`squareArena` changes the session or, with four corners, emits anything, and
whenever `pointSelected` or `resetPoint` emits anything, the worker exists and
is not running. -/
theorem running_worker_guard (cv : OpenCV) (s : CalibrateArena) :
    ((∀ t, s.thread = some t → t.isRunning = true) →
      (4 ≤ s.arenaCorners.length → squareArena cv s = (s, [])) ∧
      (∀ point : QPoint, (pointSelected cv s point).2 = [] ∧
        (pointSelected cv s point).1.arenaCorners =
          if s.arenaCorners.length < 4 then s.arenaCorners ++ [point] else s.arenaCorners) ∧
      ((resetPoint cv s).2 = [] ∧
        (resetPoint cv s).1.arenaCorners = s.arenaCorners.dropLast)) ∧
    ((squareArena cv s).1 ≠ s ∨
        (4 ≤ s.arenaCorners.length ∧ (squareArena cv s).2 ≠ []) →
      ∃ t, s.thread = some t ∧ t.isRunning = false) ∧
    (∀ point : QPoint, (pointSelected cv s point).2 ≠ [] →
      ∃ t, s.thread = some t ∧ t.isRunning = false) ∧
    ((resetPoint cv s).2 ≠ [] → ∃ t, s.thread = some t ∧ t.isRunning = false) := by
  have hsq : (∀ t, s.thread = some t → t.isRunning = true) → 4 ≤ s.arenaCorners.length →
      squareArena cv s = (s, []) := by
    intro hbusy hlen
    have hlen' : ¬ s.arenaCorners.length < 4 := by omega
    unfold squareArena
    cases ht : s.thread with
    | none => simp [hlen']
    | some t => simp [hlen', hbusy t ht]
  have hfew : s.arenaCorners.length < 4 → (squareArena cv s).1 = s := by
    intro hlen
    unfold squareArena
    simp [hlen]
  have hidle : ¬ (∀ t, s.thread = some t → t.isRunning = true) →
      ∃ t, s.thread = some t ∧ t.isRunning = false := by
    intro h
    by_contra hno
    apply h
    intro t ht
    rcases Bool.eq_false_or_eq_true t.isRunning with hrun | hrun
    · exact hrun
    · exact absurd ⟨t, ht, hrun⟩ hno
  refine ⟨?_, ?_, ?_, ?_⟩
  · intro hbusy
    refine ⟨hsq hbusy, ?_, ?_⟩
    · intro point
      refine ⟨?_, pointSelected_corners cv s point⟩
      by_contra hne
      obtain ⟨t, ht, hrun⟩ := drawPoints_nonempty cv _ hne
      have ht' : s.thread = some t := by
        by_cases h : s.arenaCorners.length < 4 <;> simpa [h] using ht
      rw [hbusy t ht'] at hrun
      exact absurd hrun (by decide)
    · refine ⟨?_, resetPoint_corners cv s⟩
      by_contra hne
      obtain ⟨t, ht, hrun⟩ := drawPoints_nonempty cv _ hne
      have ht' : s.thread = some t := by
        by_cases h : s.arenaCorners.length > 0 <;> simpa [h] using ht
      rw [hbusy t ht'] at hrun
      exact absurd hrun (by decide)
  · intro h
    apply hidle
    intro hbusy
    rcases h with h | ⟨hlen, h⟩
    · by_cases hlen : s.arenaCorners.length < 4
      · exact h (hfew hlen)
      · rw [hsq hbusy (by omega)] at h
        exact h rfl
    · rw [hsq hbusy hlen] at h
      exact h rfl
  · intro point hne
    obtain ⟨t, ht, hrun⟩ := drawPoints_nonempty cv _ hne
    refine ⟨t, ?_, hrun⟩
    by_cases h : s.arenaCorners.length < 4 <;> simpa [h] using ht
  · intro hne
    obtain ⟨t, ht, hrun⟩ := drawPoints_nonempty cv _ hne
    refine ⟨t, ?_, hrun⟩
    by_cases h : s.arenaCorners.length > 0 <;> simpa [h] using ht

/-- Instance of the amended C17: four corners with the running worker, and four
corners with no worker. -/
theorem running_worker_guard_witness :
    squareArena sampleCV { arenaCorners := fourCorners, thread := some runningThread } =
      ({ arenaCorners := fourCorners, thread := some runningThread }, []) ∧
    squareArena sampleCV { arenaCorners := fourCorners } = ({ arenaCorners := fourCorners }, []) :=
  ⟨((running_worker_guard sampleCV
      { arenaCorners := fourCorners, thread := some runningThread }).1
      (by intro t h; cases h; rfl)).1 (by decide),
   ((running_worker_guard sampleCV { arenaCorners := fourCorners }).1
      (by intro t h; cases h)).1 (by decide)⟩

theorem floor_div_pos (a b : Int) (hb : 0 < b) : ⌊(a : ℚ) / (b : ℚ)⌋ = a / b := by
  obtain ⟨n, rfl⟩ := Int.eq_ofNat_of_zero_le hb.le
  have := Rat.floor_intCast_div_natCast a n
  simpa using this

theorem truncToInt_div_pos (a b : Int) (hb : 0 < b) :
    truncToInt ((a : ℚ) / (b : ℚ)) = Int.tdiv a b := by
  have hb' : (0 : ℚ) < (b : ℚ) := by exact_mod_cast hb
  unfold truncToInt
  rcases le_or_lt 0 a with ha | ha
  · have hq : (0 : ℚ) ≤ (a : ℚ) / (b : ℚ) := div_nonneg (by exact_mod_cast ha) hb'.le
    rw [if_pos hq, floor_div_pos a b hb, Int.tdiv_eq_ediv ha hb.le]
  · have hq : ¬ (0 : ℚ) ≤ (a : ℚ) / (b : ℚ) := by
      rw [not_le]
      exact div_neg_of_neg_of_pos (by exact_mod_cast ha) hb'
    rw [if_neg hq]
    have h1 : (a : ℚ) / (b : ℚ) = -(((-a : Int) : ℚ) / (b : ℚ)) := by push_cast; ring
    rw [h1, Int.ceil_neg, floor_div_pos (-a) b hb]
    have h2 : Int.tdiv a b = -(Int.tdiv (-a) b) := by rw [Int.neg_tdiv, neg_neg]
    rw [h2, Int.tdiv_eq_ediv (by omega) hb.le]

/-- The conversion to `int` of an exact quotient of two integers is their
quotient truncated toward zero. -/
theorem truncToInt_div (a b : Int) : truncToInt ((a : ℚ) / (b : ℚ)) = Int.tdiv a b := by
  rcases lt_trichotomy b 0 with hb | hb | hb
  · have h1 : (a : ℚ) / (b : ℚ) = ((-a : Int) : ℚ) / ((-b : Int) : ℚ) := by
      push_cast; rw [neg_div_neg_eq]
    rw [h1, truncToInt_div_pos (-a) (-b) (by omega), Int.neg_tdiv_neg]
  · subst hb
    simp [truncToInt]
  · exact truncToInt_div_pos a b hb

/-- C16: a `stitchImages` call made while a computation is running does not
always request its cancellation.  On `matchedSession` the button press starts
the worker and the button reads `Abort stitching`; a feature extraction that
then fails to connect the images leaves `goodMatches` false while the worker
runs; the next press of the button, even when the worker would stop at once,
emits only the message about the missing matches and leaves the worker running.
The same holds on any session with a running worker and `goodMatches` false. -/
theorem stitchImages_without_matches_keeps_worker :
    (stitchImages matchedSession (some 0) false).2 =
      [Effect.setText 0 "Abort stitching", Effect.errorMessage "Stitcher thread running..."] ∧
    ((stitchImages matchedSession (some 0) false).1.thread.map (fun t => t.isRunning)) =
      some true ∧
    (extractFeatures splitCV (stitchImages matchedSession (some 0) false).1).1.goodMatches =
      false ∧
    ((extractFeatures splitCV (stitchImages matchedSession (some 0) false).1).1.thread.map
      (fun t => t.isRunning)) = some true ∧
    (stitchImages (extractFeatures splitCV (stitchImages matchedSession (some 0) false).1).1
      (some 0) true).2 =
      [Effect.errorMessage "No good matches, please repeat feature extraction"] ∧
    ((stitchImages (extractFeatures splitCV (stitchImages matchedSession (some 0) false).1).1
      (some 0) true).1.thread.map (fun t => t.isRunning)) = some true ∧
    stitchImages { thread := some runningThread } (some 0) true =
      ({ thread := some runningThread },
        [Effect.errorMessage "No good matches, please repeat feature extraction"]) ∧
    ((stitchImages { thread := some runningThread } (some 0) true).1.thread.map
      (fun t => t.isRunning)) = some true := by
  refine ⟨by decide, by decide, by decide, by decide, by decide, by decide, ?_, ?_⟩ <;>
    simp [stitchImages, runningThread]

/-- A `stitchImages` call made while the worker is running never starts a
computation: the worker keeps its inputs and is left running or stopped.  With
`goodMatches` true the call stops the worker or reports the failure to stop it;
with `goodMatches` false it only reports the missing matches.  The message
`Stitcher thread running...` is emitted only with `goodMatches` true and no
worker running. -/
theorem stitchImages_single_worker (s : CalibrateArena) (sender : Option Nat)
    (stopped : Bool) :
    (∀ t, s.thread = some t → t.isRunning = true →
      ((stitchImages s sender stopped).1.thread = some t ∨
        (stitchImages s sender stopped).1.thread = some { t with isRunning := false }) ∧
      Effect.errorMessage "Stitcher thread running..." ∉ (stitchImages s sender stopped).2 ∧
      (s.goodMatches = true → stopped = true → stitchImages s sender stopped =
        ({ s with thread := some { t with isRunning := false } },
          Effect.errorMessage "Stitcher thread terminated" ::
            setSenderText sender "Stitch images")) ∧
      (s.goodMatches = true → stopped = false → stitchImages s sender stopped =
        (s, [Effect.errorMessage "Couldn't end stitcher thread"])) ∧
      (s.goodMatches = false → stitchImages s sender stopped =
        (s, [Effect.errorMessage "No good matches, please repeat feature extraction"]))) ∧
    ((∀ t, s.thread = some t → t.isRunning = false) →
      ∀ t', (stitchImages s sender stopped).1.thread = some t' → t'.isRunning = true →
        s.goodMatches = true) ∧
    (Effect.errorMessage "Stitcher thread running..." ∈ (stitchImages s sender stopped).2 →
      s.goodMatches = true ∧ ∀ t, s.thread = some t → t.isRunning = false) := by
  have hbad : s.goodMatches = false → stitchImages s sender stopped =
      (s, [Effect.errorMessage "No good matches, please repeat feature extraction"]) := by
    intro h
    unfold stitchImages
    simp [h]
  have hstop : ∀ t, s.thread = some t → t.isRunning = true → s.goodMatches = true →
      stopped = true → stitchImages s sender stopped =
        ({ s with thread := some { t with isRunning := false } },
          Effect.errorMessage "Stitcher thread terminated" ::
            setSenderText sender "Stitch images") := by
    intro t ht hrun hgood hst
    unfold stitchImages
    simp [hgood, ht, hrun, hst]
  have hkeep : ∀ t, s.thread = some t → t.isRunning = true → s.goodMatches = true →
      stopped = false → stitchImages s sender stopped =
        (s, [Effect.errorMessage "Couldn't end stitcher thread"]) := by
    intro t ht hrun hgood hst
    unfold stitchImages
    simp [hgood, ht, hrun, hst]
  have hsender : ∀ text : String,
      Effect.errorMessage "Stitcher thread running..." ∉ setSenderText sender text := by
    intro text
    cases sender <;> simp [setSenderText]
  refine ⟨?_, ?_, ?_⟩
  · intro t ht hrun
    refine ⟨?_, ?_, hstop t ht hrun, hkeep t ht hrun, hbad⟩
    · cases hgood : s.goodMatches
      · left; rw [hbad hgood]; exact ht
      · rcases Bool.eq_false_or_eq_true stopped with hst | hst
        · right; rw [hstop t ht hrun hgood hst]
        · left; rw [hkeep t ht hrun hgood hst]; exact ht
    · cases hgood : s.goodMatches
      · rw [hbad hgood]; simp
      · rcases Bool.eq_false_or_eq_true stopped with hst | hst
        · rw [hstop t ht hrun hgood hst]
          simp only [List.mem_cons, not_or]
          exact ⟨by simp, hsender _⟩
        · rw [hkeep t ht hrun hgood hst]; simp
  · intro hidle t' ht' hrun'
    by_contra hgood
    rw [Bool.not_eq_true] at hgood
    rw [hbad hgood] at ht'
    rw [hidle t' ht'] at hrun'
    exact absurd hrun' (by decide)
  · intro hmem
    cases hgood : s.goodMatches
    · rw [hbad hgood] at hmem
      simp at hmem
    · refine ⟨rfl, ?_⟩
      intro t ht
      by_contra hrun
      rw [Bool.not_eq_false] at hrun
      rcases Bool.eq_false_or_eq_true stopped with hst | hst
      · rw [hstop t ht hrun hgood hst] at hmem
        simp only [List.mem_cons] at hmem
        rcases hmem with h | h
        · simp at h
        · exact hsender _ h
      · rw [hkeep t ht hrun hgood hst] at hmem
        simp at hmem

/-! ### Ambiguous corners -/

theorem lastSuch_all_false (cond : Point → Bool) (centers : List Point)
    (h : ∀ c ∈ centers, cond c = false) : lastSuch cond centers = none := by
  cases hl : lastSuch cond centers with
  | none => rfl
  | some c =>
    obtain ⟨hc, hcond⟩ := lastSuch_some cond centers c hl
    rw [h c hc] at hcond
    exact absurd hcond (by decide)

theorem lastSuch_append_last (cond : Point → Bool) (p : Point) (post : List Point)
    (hp : cond p = true) (hpost : ∀ c ∈ post, cond c = false) :
    ∀ pre : List Point, lastSuch cond (pre ++ p :: post) = some p := by
  intro pre
  induction pre with
  | nil =>
    simp only [List.nil_append, lastSuch, lastSuch_all_false cond post hpost, hp, if_true]
  | cons x rest ih =>
    show (match lastSuch cond (rest ++ p :: post) with
      | some later => some later
      | none => if cond x then some x else none) = some p
    rw [ih]

/-- The role conditions on integers: `x > width/2.0` is `width < 2 * x`. -/
theorem role_conditions_int (sz : Size) (c : Point) :
    (isTopLeft sz c ↔ 2 * c.x < sz.width ∧ c.y < Int.tdiv sz.height 2) ∧
    (isTopRight sz c ↔ sz.width < 2 * c.x ∧ c.y < Int.tdiv sz.height 2) ∧
    (isBottomLeft sz c ↔ 2 * c.x < sz.width ∧ c.y > Int.tdiv sz.height 2) ∧
    (isBottomRight sz c ↔ sz.width < 2 * c.x ∧ c.y > Int.tdiv sz.height 2) := by
  unfold isTopLeft isTopRight isBottomLeft isBottomRight
  exact ⟨and_congr (lt_half_iff _ _) Iff.rfl, and_congr (gt_half_iff _ _) Iff.rfl,
    and_congr (lt_half_iff _ _) Iff.rfl, and_congr (gt_half_iff _ _) Iff.rfl⟩

/-- Every slot of the quad built by the loop of `squareArena` holds the last
centre, in click order, that meets the condition of its role, and the default
point when no centre does. -/
theorem squareArenaInputQuad_slot (sz : Size) (small : QPoint) (corners : List QPoint)
    (role : Role) :
    (squareArenaInputQuad sz small corners).slot role =
      match lastSuch (fun c => decide (role.holds sz c))
        (corners.map (convertCoordinates sz small)) with
      | some c => c.toPoint2f
      | none => ⟨0, 0⟩ := by
  unfold squareArenaInputQuad
  cases role with
  | topLeft =>
    exact classifyCenters_slot sz Quad.q0 (fun c => decide (isTopLeft sz c))
      (fun q c => by rw [classifyCorner_q0]; simp) _ {}
  | topRight =>
    exact classifyCenters_slot sz Quad.q1 (fun c => decide (isTopRight sz c))
      (fun q c => by rw [classifyCorner_q1]; simp) _ {}
  | bottomLeft =>
    exact classifyCenters_slot sz Quad.q2 (fun c => decide (isBottomLeft sz c))
      (fun q c => by rw [classifyCorner_q2]; simp) _ {}
  | bottomRight =>
    exact classifyCenters_slot sz Quad.q3 (fun c => decide (isBottomRight sz c))
      (fun q c => by rw [classifyCorner_q3]; simp) _ {}

/-- C20: on the squaring path of `squareArena`, when two clicked points rescale to
centres that meet the condition of the same role (and no later click does), the
slot of that role holds the later-clicked of the two; a role whose condition no
centre meets keeps the default point `(0, 0)`; and the slot still computes the
transform from this quad, stores the warped image and emits only the squared
preview and the message `Squaring complete`. -/
theorem ambiguous_corners_overwrite (cv : OpenCV) (s : CalibrateArena) (t : StitchThread)
    (hcorners : 4 ≤ s.arenaCorners.length) (hthread : s.thread = some t)
    (hdone : t.isRunning = false) (hwidth : 100 ≤ t.finalImage.size.width) :
    (∀ (role : Role) (pre mid post : List QPoint) (p1 p2 : QPoint),
      s.arenaCorners = pre ++ p1 :: (mid ++ p2 :: post) →
      role.holds t.finalImage.size (convertCoordinates t.finalImage.size s.smallImageSize p1) →
      role.holds t.finalImage.size (convertCoordinates t.finalImage.size s.smallImageSize p2) →
      (∀ x ∈ post, ¬ role.holds t.finalImage.size
        (convertCoordinates t.finalImage.size s.smallImageSize x)) →
      (squareArenaInputQuad t.finalImage.size s.smallImageSize s.arenaCorners).slot role =
        (convertCoordinates t.finalImage.size s.smallImageSize p2).toPoint2f) ∧
    (∀ role : Role,
      (∀ x ∈ s.arenaCorners, ¬ role.holds t.finalImage.size
        (convertCoordinates t.finalImage.size s.smallImageSize x)) →
      (squareArenaInputQuad t.finalImage.size s.smallImageSize s.arenaCorners).slot role =
        ⟨0, 0⟩) ∧
    (squareArena cv s).1.fullSizeFinalIm =
      cv.cvtColor (cv.warpPerspective t.finalImage
        (cv.getPerspectiveTransform
          (squareArenaInputQuad t.finalImage.size s.smallImageSize s.arenaCorners)
          outputQuad) ⟨2000, 2000⟩) ∧
    (squareArena cv s).2 =
      [Effect.setSquaredImage (cv.resize (squareArena cv s).1.fullSizeFinalIm
          ⟨s.smallImageSize.x * 2, s.smallImageSize.y * 2⟩),
        Effect.errorMessage "Squaring complete"] := by
  have hrun := squareArena_runs cv s t hcorners hthread hdone hwidth
  refine ⟨?_, ?_, by rw [hrun], by rw [hrun]⟩
  · intro role pre mid post p1 p2 hsplit _ h2 hpost
    rw [squareArenaInputQuad_slot, hsplit]
    have hlist : (pre ++ p1 :: (mid ++ p2 :: post)).map
        (convertCoordinates t.finalImage.size s.smallImageSize) =
        ((pre ++ p1 :: mid).map (convertCoordinates t.finalImage.size s.smallImageSize)) ++
          convertCoordinates t.finalImage.size s.smallImageSize p2 ::
            post.map (convertCoordinates t.finalImage.size s.smallImageSize) := by
      simp
    rw [hlist, lastSuch_append_last _ _ _ (by simpa using h2)]
    intro c hc
    obtain ⟨x, hx, rfl⟩ := List.mem_map.mp hc
    simpa using hpost x hx
  · intro role hnone
    rw [squareArenaInputQuad_slot, lastSuch_all_false]
    intro c hc
    obtain ⟨x, hx, rfl⟩ := List.mem_map.mp hc
    simpa using hnone x hx

/-- Instance of C20: on the 600 by 600 preview of a 1200 by 1200 composite the
clicks `(50, 50)`, `(100, 100)`, `(550, 50)`, `(50, 550)` put two points in the
top-left quadrant and none in the bottom-right one: top-left holds
`(200, 200)`, the rescaled second click, and bottom-right holds `(0, 0)`. -/
theorem ambiguous_corners_overwrite_witness :
    (squareArenaInputQuad ⟨2 * 600, 2 * 600⟩ ⟨300, 300⟩
        [⟨50, 50⟩, ⟨100, 100⟩, ⟨550, 50⟩, ⟨50, 550⟩]).slot Role.topLeft =
      (convertCoordinates ⟨2 * 600, 2 * 600⟩ ⟨300, 300⟩ ⟨100, 100⟩).toPoint2f ∧
    (squareArenaInputQuad ⟨2 * 600, 2 * 600⟩ ⟨300, 300⟩
        [⟨50, 50⟩, ⟨100, 100⟩, ⟨550, 50⟩, ⟨50, 550⟩]).slot Role.bottomRight = ⟨0, 0⟩ :=
  have hconv : ∀ c : QPoint, rescaleInRange (2 * 600) 300 c.x ∧ rescaleInRange (2 * 600) 300 c.y →
      convertCoordinates ⟨2 * 600, 2 * 600⟩ ⟨300, 300⟩ c =
        ⟨Int.tdiv (c.x * (2 * 600)) (300 * 2), Int.tdiv (c.y * (2 * 600)) (300 * 2)⟩ :=
    fun c hc => convertCoordinates_in_range ⟨2 * 600, 2 * 600⟩ ⟨300, 300⟩ c hc.1 hc.2
  have hrange : ∀ c ∈ ([⟨50, 50⟩, ⟨100, 100⟩, ⟨550, 50⟩, ⟨50, 550⟩] : List QPoint),
      rescaleInRange (2 * 600) 300 c.x ∧ rescaleInRange (2 * 600) 300 c.y := by decide
  have h := ambiguous_corners_overwrite sampleCV
    { arenaCorners := [⟨50, 50⟩, ⟨100, 100⟩, ⟨550, 50⟩, ⟨50, 550⟩],
      thread := some { finalImage := ⟨⟨2 * 600, 2 * 600⟩, 7⟩, isRunning := false } }
    { finalImage := ⟨⟨2 * 600, 2 * 600⟩, 7⟩, isRunning := false }
    (by decide) rfl rfl (by decide)
  ⟨h.1 Role.topLeft [] [] [⟨550, 50⟩, ⟨50, 550⟩] ⟨50, 50⟩ ⟨100, 100⟩ rfl
      (by rw [hconv _ (by decide)]; exact (role_conditions_int _ _).1.mpr (by decide))
      (by rw [hconv _ (by decide)]; exact (role_conditions_int _ _).1.mpr (by decide))
      (by
        intro x hx
        rw [hconv x (hrange x (by simp only [List.mem_cons] at hx ⊢; tauto))]
        intro hrole
        exact absurd ((role_conditions_int _ _).1.mp hrole) (by clear hrole; revert x; decide)),
   h.2.1 Role.bottomRight (by
        intro x hx
        rw [hconv x (hrange x hx)]
        intro hrole
        exact absurd ((role_conditions_int _ _).2.2.2.mp hrole) (by clear hrole; revert x; decide))⟩

/-! ### The worker -/

/-- A completed `run` appends one intrinsic and one rotation matrix per camera
to the lists the worker already holds. -/
theorem run_appends (cv : OpenCV) (st : Stitcher) (t done : StitchThread)
    (h : t.run cv st = some done) :
    done.Ks = t.Ks ++ (refinedCameras st t).map st.cameraK ∧
    done.Rs = t.Rs ++ (refinedCameras st t).map (fun c => c.R) ∧
    done.isRunning = false ∧ done.finalImage.size = ⟨1536, 1536⟩ := by
  unfold StitchThread.run at h
  simp only at h
  cases hw : warpImages st t.cameraCalibrationImages (refinedCameras st t) with
  | none => rw [hw] at h; simp at h
  | some warped =>
    rw [hw] at h
    simp only [Option.some.injEq] at h
    subst h
    exact ⟨rfl, rfl, rfl, rfl⟩

/-- The worker started by `stitchImages` keeps the lists `Ks` and `Rs` of the
worker object it reuses. -/
theorem launchStitcher_keeps_lists (s : CalibrateArena) (t : StitchThread)
    (sender : Option Nat) :
    (launchStitcher s t sender).1.thread.map (fun w => (w.Ks, w.Rs)) = some (t.Ks, t.Rs) :=
  rfl

/-- C14: on `matchedSession` with a stitcher that estimates four cameras, the
worker holds four matrices in `Ks` and in `Rs` after the first complete run and
eight after the second, and `saveCalibration` then writes the lists of eight. -/
theorem second_run_accumulates_matrices :
    (sessionAfterRuns 1).map (fun s => s.thread.map (fun t => (t.Ks.length, t.Rs.length))) =
      some (some (4, 4)) ∧
    (sessionAfterRuns 2).map (fun s => s.thread.map (fun t => (t.Ks.length, t.Rs.length))) =
      some (some (8, 8)) ∧
    (sessionAfterRuns 2).map (fun s => writtenLengths (saveCalibration s "calibration.xml").2) =
      some (some (8, 8)) := by
  refine ⟨?_, ?_, ?_⟩ <;> decide

/-- C11: with cameras of focal lengths 10, 20, 30, 40 the median computed by
`run` is 25, while the scale given to the warper is 3000; for every stitcher,
the image and mask warps and the whole of `run` are the same when the warper is
replaced by its behaviour at scale 3000, so the focal lengths reach the warps
through the camera matrices only. -/
theorem warper_scale_ignores_median :
    cameraFocals sampleStitcher runningThread = [10, 20, 30, 40] ∧
    warpedImageScale (cameraFocals sampleStitcher runningThread) = some 25 ∧
    warperScale = 3000 ∧
    (∀ (st : Stitcher) (images : List Mat) (cameras : List CameraParams),
      warpImages st images cameras =
        warpImages { st with planeWarp := fun _ => st.planeWarp 3000 } images cameras) ∧
    (∀ (cv : OpenCV) (st : Stitcher) (t : StitchThread),
      t.run cv st = t.run cv { st with planeWarp := fun _ => st.planeWarp 3000 }) := by
  have hfocals : cameraFocals sampleStitcher runningThread = [10, 20, 30, 40] := by
    simp [cameraFocals, refinedCameras, sampleStitcher, runningThread, fourFeatures,
      List.enum, List.enumFrom]
    norm_num
  refine ⟨hfocals, ?_, rfl, fun _ _ _ => rfl, fun _ _ _ => rfl⟩
  rw [hfocals]
  have hs : sortFocals [10, 20, 30, 40] = [10, 20, 30, 40] := by decide
  have h50 : float64 (50 : ℚ) = 50 := by
    have h := float64_intCast 50 (by decide)
    simpa using h
  have h25 : float32 (25 : ℚ) = 25 := by
    have h := float32_intCast 25 (by decide)
    simpa using h
  have f50 : float32 (50 : ℚ) = 50 := by
    have h := float32_intCast 50 (by decide)
    simpa using h
  simp only [warpedImageScale, hs]
  norm_num [h50, f50, h25]

/-! ### The quad written by `saveCalibration` -/

/-- One iteration of the loop of `saveCalibration` does what one iteration of the
loop of `squareArena` does. -/
theorem saveClassifyCorner_eq (sz : Size) (q : Quad) (c : Point) :
    saveClassifyCorner sz q c = classifyCorner sz q c := by
  unfold saveClassifyCorner classifyCorner isBottomRight isTopRight isBottomLeft isTopLeft
  rfl

/-- The loops of `saveCalibration` and of `squareArena` build the same quad from
any starting quad. -/
theorem saveCalibration_loop_eq (sz : Size) (small : QPoint) :
    ∀ (corners : List QPoint) (q : Quad),
      corners.foldl (fun inputQuad c =>
        saveClassifyCorner sz inputQuad
          ⟨floatToInt (float32 (float32 (float32 (c.x : ℚ) * float32 (sz.width : ℚ)) /
             float32 ((small.x * 2 : Int) : ℚ))),
           floatToInt (float32 (float32 (float32 (c.y : ℚ) * float32 (sz.height : ℚ)) /
             float32 ((small.y * 2 : Int) : ℚ)))⟩) q =
        classifyCenters sz q (corners.map (convertCoordinates sz small)) := by
  intro corners
  induction corners with
  | nil => intro q; rfl
  | cons c rest ih =>
    intro q
    simp only [List.foldl_cons, List.map_cons, classifyCenters]
    rw [ih, saveClassifyCorner_eq]
    rfl

/-- The outcome of `saveCalibration` on the path that writes the record. -/
theorem saveCalibration_writes (s : CalibrateArena) (t : StitchThread) (fileName : String)
    (hthread : s.thread = some t) (hdone : t.isRunning = false)
    (hwidth : 100 ≤ t.finalImage.size.width) (hcorners : 4 ≤ s.arenaCorners.length)
    (hname : fileName.isEmpty = false) :
    saveCalibration s fileName =
      (s, [Effect.writeCalibration fileName
          (saveCalibrationInputQuad t.finalImage.size s.smallImageSize s.arenaCorners)
          t.Rs t.Ks,
        Effect.setLastDirOut fileName]) := by
  have hw : ¬ t.finalImage.size.width < 100 := by omega
  have hc : ¬ s.arenaCorners.length < 4 := by omega
  unfold saveCalibration
  simp [hthread, hdone, hw, hc, hname]

/-- C21: for every corner list, composite size and small-image size the loop of
`saveCalibration` builds the quad that the loop of `squareArena` builds, slot by
slot in the role order top-left, top-right, bottom-left, bottom-right; and on
the path that writes the record, the corners `saveCalibration` writes as
`corner1` to `corner4` are the quad `squareArena` computes its transform from. -/
theorem saveCalibration_quad_eq_squareArena (finalImage : Size) (smallImageSize : QPoint)
    (arenaCorners : List QPoint) :
    saveCalibrationInputQuad finalImage smallImageSize arenaCorners =
      squareArenaInputQuad finalImage smallImageSize arenaCorners ∧
    (∀ role : Role,
      (saveCalibrationInputQuad finalImage smallImageSize arenaCorners).slot role =
        (squareArenaInputQuad finalImage smallImageSize arenaCorners).slot role) ∧
    (∀ (cv : OpenCV) (s : CalibrateArena) (t : StitchThread) (fileName : String),
      s.thread = some t → t.isRunning = false → 100 ≤ t.finalImage.size.width →
      4 ≤ s.arenaCorners.length → fileName.isEmpty = false →
      ∃ quad : Quad,
        saveCalibration s fileName =
          (s, [Effect.writeCalibration fileName quad t.Rs t.Ks,
            Effect.setLastDirOut fileName]) ∧
        (squareArena cv s).1.fullSizeFinalIm =
          cv.cvtColor (cv.warpPerspective t.finalImage
            (cv.getPerspectiveTransform quad outputQuad) ⟨2000, 2000⟩)) := by
  have heq : ∀ (sz : Size) (small : QPoint) (corners : List QPoint),
      saveCalibrationInputQuad sz small corners = squareArenaInputQuad sz small corners := by
    intro sz small corners
    unfold saveCalibrationInputQuad squareArenaInputQuad
    exact saveCalibration_loop_eq sz small corners {}
  refine ⟨heq _ _ _, fun role => by rw [heq], ?_⟩
  intro cv s t fileName hthread hdone hwidth hcorners hname
  refine ⟨squareArenaInputQuad t.finalImage.size s.smallImageSize s.arenaCorners, ?_, ?_⟩
  · rw [saveCalibration_writes s t fileName hthread hdone hwidth hcorners hname, heq]
  · rw [squareArena_runs cv s t hcorners hthread hdone hwidth]

/-- Instance of C21: four corners and a finished worker with a 1536 by 1536
composite, saved to `calibration.xml`. -/
theorem saveCalibration_quad_eq_squareArena_witness :
    ∃ quad : Quad,
      saveCalibration { arenaCorners := fourCorners, thread := some finishedThread }
          "calibration.xml" =
        ({ arenaCorners := fourCorners, thread := some finishedThread },
          [Effect.writeCalibration "calibration.xml" quad finishedThread.Rs finishedThread.Ks,
            Effect.setLastDirOut "calibration.xml"]) ∧
      (squareArena sampleCV
          { arenaCorners := fourCorners, thread := some finishedThread }).1.fullSizeFinalIm =
        sampleCV.cvtColor (sampleCV.warpPerspective finishedThread.finalImage
          (sampleCV.getPerspectiveTransform quad outputQuad) ⟨2000, 2000⟩) :=
  (saveCalibration_quad_eq_squareArena ⟨1536, 1536⟩ ⟨300, 300⟩ fourCorners).2.2 sampleCV
    { arenaCorners := fourCorners, thread := some finishedThread } finishedThread
    "calibration.xml" rfl rfl (by decide) (by decide) (by decide)

/-! ### The crop of `zoomMove` and the image size -/

/-- The origin of the rectangle of `zoomMove` along each axis: in range when the
image exceeds the preview window by a pixel, and `size - 2 * small - 1`
otherwise, whatever the focus point. -/
theorem zoomRect_origin (small : QPoint) (full : Size) (pos : QPoint) :
    (2 * small.x + 1 ≤ full.width →
      0 ≤ (zoomRect small full pos).x ∧
      (zoomRect small full pos).x + 2 * small.x ≤ full.width - 1) ∧
    (full.width ≤ 2 * small.x →
      (zoomRect small full pos).x = full.width - 2 * small.x - 1) ∧
    (2 * small.y + 1 ≤ full.height →
      0 ≤ (zoomRect small full pos).y ∧
      (zoomRect small full pos).y + 2 * small.y ≤ full.height - 1) ∧
    (full.height ≤ 2 * small.y →
      (zoomRect small full pos).y = full.height - 2 * small.y - 1) := by
  unfold zoomRect
  simp only
  generalize floatToInt _ = rawWidth
  generalize floatToInt _ = rawHeight
  refine ⟨?_, ?_, ?_, ?_⟩ <;> intro h <;> split_ifs <;> omega

/-- C22: for a positive small-image size and every focus point, the crop origin
of `zoomMove` satisfies `0 <= x0` and `x0 + 2 * small.x <= width` exactly when
`width >= 2 * small.x + 1`, and likewise for `y`, so the rectangle (always of
the preview size) is inside the image exactly when the image is strictly larger
than the preview window both ways; for a width equal to the preview width
`x0 = -1`; and on an empty corrected image, as before any squaring, the origin
is negative and the sub-matrix assertion of `zoomMove` fails. -/
theorem zoomRect_inside_iff (smallImageSize : QPoint) (full : Size) (pos : QPoint)
    (hx : 0 < smallImageSize.x) (hy : 0 < smallImageSize.y) :
    ((0 ≤ (zoomRect smallImageSize full pos).x ∧
        (zoomRect smallImageSize full pos).x + 2 * smallImageSize.x ≤ full.width) ↔
      full.width ≥ 2 * smallImageSize.x + 1) ∧
    ((0 ≤ (zoomRect smallImageSize full pos).y ∧
        (zoomRect smallImageSize full pos).y + 2 * smallImageSize.y ≤ full.height) ↔
      full.height ≥ 2 * smallImageSize.y + 1) ∧
    ((zoomRect smallImageSize full pos).width = 2 * smallImageSize.x ∧
      (zoomRect smallImageSize full pos).height = 2 * smallImageSize.y) ∧
    ((zoomRect smallImageSize full pos).inside full ↔
      (full.width ≥ 2 * smallImageSize.x + 1 ∧ full.height ≥ 2 * smallImageSize.y + 1)) ∧
    (full.width = 2 * smallImageSize.x → (zoomRect smallImageSize full pos).x = -1) ∧
    (full.height = 2 * smallImageSize.y → (zoomRect smallImageSize full pos).y = -1) ∧
    (∀ (cv : OpenCV) (s : CalibrateArena), s.smallImageSize = smallImageSize →
      s.fullSizeFinalIm = {} →
      (zoomRect s.smallImageSize s.fullSizeFinalIm.size pos).x < 0 ∧
      (zoomRect s.smallImageSize s.fullSizeFinalIm.size pos).y < 0 ∧
      zoomMove cv s pos = none) := by
  obtain ⟨hxin, hxout, hyin, hyout⟩ := zoomRect_origin smallImageSize full pos
  have hwidth : (zoomRect smallImageSize full pos).width = 2 * smallImageSize.x := by
    show smallImageSize.x * 2 = 2 * smallImageSize.x
    omega
  have hheight : (zoomRect smallImageSize full pos).height = 2 * smallImageSize.y := by
    show smallImageSize.y * 2 = 2 * smallImageSize.y
    omega
  have hxiff : (0 ≤ (zoomRect smallImageSize full pos).x ∧
      (zoomRect smallImageSize full pos).x + 2 * smallImageSize.x ≤ full.width) ↔
      full.width ≥ 2 * smallImageSize.x + 1 := by
    constructor
    · intro h
      by_contra hsmall
      have := hxout (by omega)
      omega
    · intro h
      have := hxin h
      omega
  have hyiff : (0 ≤ (zoomRect smallImageSize full pos).y ∧
      (zoomRect smallImageSize full pos).y + 2 * smallImageSize.y ≤ full.height) ↔
      full.height ≥ 2 * smallImageSize.y + 1 := by
    constructor
    · intro h
      by_contra hsmall
      have := hyout (by omega)
      omega
    · intro h
      have := hyin h
      omega
  refine ⟨hxiff, hyiff, ⟨hwidth, hheight⟩, ?_, ?_, ?_, ?_⟩
  · unfold Rect.inside
    rw [hwidth, hheight]
    constructor
    · rintro ⟨h1, _, h3, h4, _, h6⟩
      exact ⟨hxiff.mp ⟨h1, h3⟩, hyiff.mp ⟨h4, h6⟩⟩
    · rintro ⟨h1, h2⟩
      obtain ⟨a, b⟩ := hxiff.mpr h1
      obtain ⟨c, d⟩ := hyiff.mpr h2
      exact ⟨a, by omega, b, c, by omega, d⟩
  · intro h
    have := hxout (by omega)
    omega
  · intro h
    have := hyout (by omega)
    omega
  · intro cv s hsmall hempty
    have hsize : s.fullSizeFinalIm.size = ⟨0, 0⟩ := by rw [hempty]
    obtain ⟨_, hx0, _, hy0⟩ := zoomRect_origin s.smallImageSize ⟨0, 0⟩ pos
    have hx0' := hx0 (by show (0 : Int) ≤ 2 * s.smallImageSize.x; rw [hsmall]; omega)
    have hy0' := hy0 (by show (0 : Int) ≤ 2 * s.smallImageSize.y; rw [hsmall]; omega)
    have hxs : 0 < s.smallImageSize.x := by rw [hsmall]; exact hx
    have hys : 0 < s.smallImageSize.y := by rw [hsmall]; exact hy
    rw [hsize]
    have hxneg : (zoomRect s.smallImageSize ⟨0, 0⟩ pos).x < 0 := by
      rw [hx0']; show (0 : Int) - 2 * s.smallImageSize.x - 1 < 0; omega
    have hyneg : (zoomRect s.smallImageSize ⟨0, 0⟩ pos).y < 0 := by
      rw [hy0']; show (0 : Int) - 2 * s.smallImageSize.y - 1 < 0; omega
    refine ⟨hxneg, hyneg, ?_⟩
    unfold zoomMove
    simp only [hsize]
    rw [if_neg]
    intro hin
    exact absurd hin.1 (by omega)

/-- Instance of C22 on the default small-image size `(300, 300)`: a 2000 by 2000
corrected image, a 600 by 600 one, and the fresh session. -/
theorem zoomRect_inside_iff_witness :
    (zoomRect ⟨300, 300⟩ ⟨2000, 2000⟩ ⟨-40, 9000⟩).inside ⟨2000, 2000⟩ ∧
    (zoomRect ⟨300, 300⟩ ⟨600, 600⟩ ⟨-40, 9000⟩).x = -1 ∧
    zoomMove sampleCV {} ⟨-40, 9000⟩ = none :=
  ⟨(zoomRect_inside_iff ⟨300, 300⟩ ⟨2000, 2000⟩ ⟨-40, 9000⟩ (by decide) (by decide)).2.2.2.1.mpr
      (by decide),
   (zoomRect_inside_iff ⟨300, 300⟩ ⟨600, 600⟩ ⟨-40, 9000⟩ (by decide) (by decide)).2.2.2.2.1
      rfl,
   ((zoomRect_inside_iff ⟨300, 300⟩ ⟨0, 0⟩ ⟨-40, 9000⟩ (by decide) (by decide)).2.2.2.2.2.2
      sampleCV {} rfl rfl).2.2⟩

end KilobotArena
